import Mathlib

/-!
Verification of the widget layout / image-compositing engine of
`src/plugins/utils/plot.py` (repository NeuraXmy/lunabot).

The Python code is shallowly embedded: pixel geometry is exact integer
arithmetic (`Int`, with `Int.fdiv`/`Int.fmod` for Python `//`/`%`),
Python float arithmetic is modelled by exact rationals (`ℚ`, with `truncQ`
for Python `int(...)` truncation), fallible code returns `Except PErr`,
and the PIL font-metric oracle `get_text_size` is modelled by an additive
per-character width function, which is the only abstraction over data the
engine obtains from outside (font files).
-/

/-- Error kinds raised by the engine, mirroring the Python exception classes:
`assertFail` for failed `assert` statements, `valueErr` for `raise ValueError`,
`zeroDiv` for `ZeroDivisionError`, `typeErr` for `TypeError`. -/
inductive PErr where
  | assertFail
  | valueErr
  | zeroDiv
  | typeErr
deriving DecidableEq, Repr

/-- Python `int(x)` on a float/rational: truncation toward zero. -/
def truncQ (q : ℚ) : ℤ := if q < 0 then ⌈q⌉ else ⌊q⌋

/-- Python truthiness of an optional integer attribute (`if self.w:`):
`None` and `0` are falsy. -/
def truthyO (o : Option Int) : Bool := o.getD 0 ≠ 0

/-- Python `np.clip` / clamping of a rational into `[lo, hi]`. -/
def qclip (x lo hi : ℚ) : ℚ := min hi (max lo x)

/-- Translate a (possibly negative) Python slice index into a `List.take` /
`List.drop` count, as in `s[:i]` / `s[i:]`. -/
def pyIdx (len : Nat) (i : Int) : Nat := if 0 ≤ i then i.toNat else len - (-i).toNat

/-- Python `s[:i]`. -/
def pySliceTo {α : Type} (s : List α) (i : Int) : List α := s.take (pyIdx s.length i)

/-- Python `s[i:]`. -/
def pySliceFrom {α : Type} (s : List α) (i : Int) : List α := s.drop (pyIdx s.length i)

-- ==================== Painter / region stack (plot.py lines 208-256) ====================

/-- The region-relevant state of `Painter`: the owned image size, the active
region (`offset`, `size`), the pushed region stack, and counters of how many
`set_region` pushes and stack pops have been performed (the counters are
ghost instrumentation used to state push/pop balance; they do not influence
behaviour). -/
structure Painter where
  img_size : Int × Int
  offset : Int × Int
  size : Int × Int
  stack : List ((Int × Int) × (Int × Int))
  pushes : Nat
  pops : Nat
deriving DecidableEq, Repr

/-- `Painter.set_region`: push the current `(offset, size)` and replace the
active region. -/
def Painter.set_region (p : Painter) (pos sz : Int × Int) : Painter :=
  { p with stack := (p.offset, p.size) :: p.stack, offset := pos, size := sz,
           pushes := p.pushes + 1 }

/-- `Painter.shrink_region(dlt)`: move the origin inward by `dlt` and shrink
the size by `2*dlt` on each axis. -/
def Painter.shrink_region (p : Painter) (dlt : Int × Int) : Painter :=
  p.set_region (p.offset.1 + dlt.1, p.offset.2 + dlt.2)
    (p.size.1 - dlt.1 * 2, p.size.2 - dlt.2 * 2)

/-- `Painter.expand_region(dlt)`: the inverse adjustment of `shrink_region`. -/
def Painter.expand_region (p : Painter) (dlt : Int × Int) : Painter :=
  p.set_region (p.offset.1 - dlt.1, p.offset.2 - dlt.2)
    (p.size.1 + dlt.1 * 2, p.size.2 + dlt.2 * 2)

/-- `Painter.move_region(dlt, size=None)`: translate the region, optionally
giving it a new size. -/
def Painter.move_region (p : Painter) (dlt : Int × Int) (sz : Option (Int × Int)) : Painter :=
  p.set_region (p.offset.1 + dlt.1, p.offset.2 + dlt.2) (sz.getD p.size)

/-- One pop of `Painter.restore_region`: restore the top stack entry, or
collapse to the full image region if the stack is empty (the defensive
default in the source; no stack entry is popped in that case). -/
def Painter.pop1 (p : Painter) : Painter :=
  match p.stack with
  | [] => { p with offset := (0, 0), size := p.img_size }
  | (o, s) :: rest => { p with offset := o, size := s, stack := rest, pops := p.pops + 1 }

/-- `Painter.restore_region(depth)`: pop once, then recurse while `depth > 1`
(so `depth = 0` and `depth = 1` both pop exactly once, as in the source). -/
def Painter.restore_region : Painter → Nat → Painter
  | p, 0 => p.pop1
  | p, 1 => p.pop1
  | p, (d + 2) => Painter.restore_region p.pop1 (d + 1)

-- ==================== Alignment (plot.py lines 22-26) ====================

/-- Horizontal alignment component: left / center / right. -/
inductive HA where
  | l
  | c
  | r
deriving DecidableEq, Repr

/-- Vertical alignment component: top / center / bottom. -/
inductive VA where
  | t
  | c
  | b
deriving DecidableEq, Repr

/-- `ALIGN_MAP` lookup: maps the 13 accepted alignment tokens to their
(horizontal, vertical) components, failing on any other token. A failed
lookup corresponds to the eager `raise ValueError('Invalid align')` /
`KeyError` surfaced at configuration time. -/
def parse_align (s : String) : Except PErr (HA × VA) :=
  if s = "c" then .ok (.c, .c)
  else if s = "l" then .ok (.l, .c)
  else if s = "r" then .ok (.r, .c)
  else if s = "t" then .ok (.c, .t)
  else if s = "b" then .ok (.c, .b)
  else if s = "tl" then .ok (.l, .t)
  else if s = "tr" then .ok (.r, .t)
  else if s = "bl" then .ok (.l, .b)
  else if s = "br" then .ok (.r, .b)
  else if s = "lt" then .ok (.l, .t)
  else if s = "lb" then .ok (.l, .b)
  else if s = "rt" then .ok (.r, .t)
  else if s = "rb" then .ok (.r, .b)
  else .error .valueErr

-- ==================== Widget attributes and base sizing (plot.py lines 537-749) ====================

/-- The layout attributes every `Widget` owns (margins, paddings, explicit
size, content alignment, anchor-relative offset). -/
structure Attrs where
  content_halign : HA := .l
  content_valign : VA := .t
  vmargin : Int := 0
  hmargin : Int := 0
  vpadding : Int := 0
  hpadding : Int := 0
  w : Option Int := none
  h : Option Int := none
  offset : Int × Int := (0, 0)
  offset_xanchor : HA := .l
  offset_yanchor : VA := .t
deriving DecidableEq, Repr

/-- `Widget._get_self_size` (plot.py lines 665-674), as a function of the
widget's content size: each axis limit is `w - 2*padding` when an explicit
size is set and the content size otherwise; content exceeding a limit raises
`ValueError`; otherwise the self size is the limit plus twice margin plus
twice padding. -/
def self_size_of (a : Attrs) (cs : Int × Int) : Except PErr (Int × Int) :=
  let content_w_limit := match a.w with
    | some wv => wv - a.hpadding * 2
    | none => cs.1
  let content_h_limit := match a.h with
    | some hv => hv - a.vpadding * 2
    | none => cs.2
  if cs.1 > content_w_limit ∨ cs.2 > content_h_limit then .error .valueErr
  else .ok (content_w_limit + a.hmargin * 2 + a.hpadding * 2,
            content_h_limit + a.vmargin * 2 + a.vpadding * 2)

-- ==================== Gradients (plot.py lines 165-204) ====================

/-- Conversion of one float colour channel by `np.ndarray.astype(np.uint8)`:
truncate toward zero and wrap modulo 256. -/
def u8cast (x : ℚ) : ℤ := (truncQ x).emod 256

/-- One colour channel of `LinearGradient.get_colors` (plot.py lines 173-187)
as a function of the unclamped projection parameter `t` of the pixel onto the
`p1 → p2` segment: `t` is clamped to `[0,1]`, the channel is interpolated as
`(1-t)*c1 + t*c2`, clipped to `[0,255]` and cast to `uint8`. -/
def linear_channel_at (c1 c2 : ℤ) (t : ℚ) : ℤ :=
  u8cast (qclip ((1 - qclip t 0 1) * (c1 : ℚ) + qclip t 0 1 * (c2 : ℚ)) 0 255)

/-- One colour channel of `RadialGradient.get_colors` (plot.py lines 196-204)
as a function of the pixel's Euclidean distance `dist` from the (pixel-space)
center: the normalised distance `dist / radius` is clamped to `[0,1]` and the
channel is interpolated as `d*c1 + (1-d)*c2` (note: `c1` at distance ≥ radius,
`c2` at distance 0 — the reverse of the linear gradient), then cast to
`uint8` with no `[0,255]` clip. -/
def radial_channel (c1 c2 : ℤ) (dist radius : ℚ) : ℤ :=
  u8cast (qclip (dist / radius) 0 1 * (c1 : ℚ) + (1 - qclip (dist / radius) 0 1) * (c2 : ℚ))

-- ==================== TextBox text layout (plot.py lines 1135-1237) ====================

/-- Overflow policy of a `TextBox`. -/
inductive Overflow where
  | shrink
  | clip
deriving DecidableEq, Repr

/-- Width half of `get_text_size(font, text)` (plot.py lines 107-112), modelled
by an additive per-character width function `cw` for the external PIL font
metrics: the rendered width of a string is the sum of its characters' widths. -/
def textW (cw : Char → Nat) (s : List Char) : Int :=
  (s.map fun ch => ((cw ch : Nat) : Int)).sum

/-- Python `text.split('\n')` on a character list (always returns at least
one piece; the empty string splits to `['']`). -/
def splitNl (s : List Char) : List (List Char) :=
  match s with
  | [] => [[]]
  | ch :: rest =>
    let r := splitNl rest
    if ch = '\n' then [] :: r
    else
      match r with
      | [] => [[ch]]
      | first :: others => (ch :: first) :: others

/-- The binary-search loop of `TextBox._get_clip_text_to_width_idx`
(plot.py lines 1188-1194): search over the prefix length `m` of `text`,
comparing the rendered width of `text[:m] + suffix` with `width`; on an exact
width match return `m`, otherwise converge and return the final `r`.
A fuel argument bounds the `while l <= r` loop (any fuel above the initial
`r - l + 1` is unreachable). -/
def clip_search (cw : Char → Nat) (text sfx : List Char) (width : Int) :
    Nat → Int → Int → Int
  | 0, _, r => r
  | fuel + 1, l, r =>
    if l ≤ r then
      let m := (l + r).fdiv 2
      let wm := textW cw (pySliceTo text m ++ sfx)
      if wm < width then clip_search cw text sfx width fuel (m + 1) r
      else if width < wm then clip_search cw text sfx width fuel l (m - 1)
      else m
    else r

/-- `TextBox._get_clip_text_to_width_idx` (plot.py lines 1183-1195): `none`
when `text + suffix` already fits in `width`, otherwise the index found by
binary search over `[0, len(text)]`. -/
def clip_text_to_width_idx (cw : Char → Nat) (text sfx : List Char) (width : Int) :
    Option Int :=
  if textW cw (text ++ sfx) ≤ width then none
  else some (clip_search cw text sfx width (text.length + 1) 0 (text.length : Int))

/-- The `while True` wrapping loop inside `TextBox._get_lines`
(plot.py lines 1205-1214): reserve the ellipsis suffix on the line that would
be the last permitted one, binary-search a clip index, split off the clipped
line, stop when the permitted line count is reached or the remainder fits.
The fuel bounds the loop; the source loop can genuinely diverge (e.g. a
clip index of 0 with the line-count already exceeded), in which case the
model returns the lines accumulated so far. -/
def wrap_line_loop (cw : Char → Nat) (avail : Int) (sfx : List Char)
    (line_count : Int) : Nat → List (List Char) → List Char → List (List Char)
  | 0, acc, _ => acc
  | fuel + 1, acc, line =>
    let line_sfx := if (acc.length : Int) = line_count - 1 then sfx else []
    match clip_text_to_width_idx cw line line_sfx avail with
    | none => acc ++ [line]
    | some idx =>
      let acc1 := acc ++ [pySliceTo line idx ++ line_sfx]
      if (acc1.length : Int) = line_count then acc1
      else wrap_line_loop cw avail sfx line_count fuel acc1 (pySliceFrom line idx)

/-- The configuration of a `TextBox` after construction: the text, the
additive width model of its PIL font, the style font size, the resolved line
count, line separation, wrap flag, overflow policy and
`use_real_line_count`. -/
structure TextCfg where
  text : List Char
  char_w : Char → Nat
  font_size : Int
  line_count : Int
  line_sep : Int
  wrap : Bool
  overflow : Overflow
  use_real_line_count : Bool

/-- The reserved overflow suffix: `'...'` for `shrink`, empty for `clip`. -/
def suffix_of : Overflow → List Char
  | .shrink => ['.', '.', '.']
  | .clip => []

/-- `TextBox._get_lines` (plot.py lines 1197-1222): split the text on
newlines; with a truthy explicit width clip each piece (wrapping repeatedly
when `wrap` is set), otherwise keep it; finally keep only the first
`line_count` lines. -/
def get_lines (a : Attrs) (cfg : TextCfg) : List (List Char) :=
  let raw := splitNl cfg.text
  let clipped := raw.foldl (fun acc line =>
    if truthyO a.w then
      let avail := a.w.getD 0 - a.hpadding * 2
      let sfx := suffix_of cfg.overflow
      if cfg.wrap then
        wrap_line_loop cfg.char_w avail sfx cfg.line_count
          (cfg.line_count.toNat + line.length + 1) acc line
      else
        match clip_text_to_width_idx cfg.char_w line sfx avail with
        | none => acc ++ [line]
        | some idx => acc ++ [pySliceTo line idx ++ sfx]
    else acc ++ [line]) []
  pySliceTo clipped cfg.line_count

/-- `TextBox._get_content_size` (plot.py lines 1224-1237): the maximum line
width (or the explicit width minus padding when a truthy width is set) and
`line_count * (font_size + line_sep) - line_sep` (with the real produced line
count when `use_real_line_count`; overridden by a truthy explicit height). -/
def text_content_size (a : Attrs) (cfg : TextCfg) : Int × Int :=
  let lines := get_lines a cfg
  let wmax := lines.foldl (fun acc l => max acc (textW cfg.char_w l)) 0
  let lc : Int := if cfg.use_real_line_count then (lines.length : Int) else cfg.line_count
  let h0 := lc * (cfg.font_size + cfg.line_sep) - cfg.line_sep
  let wr := if truthyO a.w then a.w.getD 0 - a.hpadding * 2 else wmax
  let hr := if truthyO a.h then a.h.getD 0 - a.vpadding * 2 else h0
  (wr, hr)

/-- `TextBox.__init__` (plot.py lines 1136-1154): checks the overflow token
eagerly (`assert overflow in ('shrink', 'clip')`), resolves a `None` line
count to `99999` when `use_real_line_count` else `1`, and sets padding 2 and
margin 0. -/
def TextBox.mk_checked (text : List Char) (cw : Char → Nat) (font_size : Int)
    (line_count : Option Int) (line_sep : Int) (wrap : Bool) (overflow : String)
    (use_real_line_count : Bool) : Except PErr (Attrs × TextCfg) :=
  if overflow = "shrink" ∨ overflow = "clip" then
    let lc : Int := match line_count with
      | none => if use_real_line_count then 99999 else 1
      | some v => v
    let ov : Overflow := if overflow = "shrink" then .shrink else .clip
    .ok ({ vpadding := 2, hpadding := 2, vmargin := 0, hmargin := 0 },
         { text := text, char_w := cw, font_size := font_size, line_count := lc,
           line_sep := line_sep, wrap := wrap, overflow := ov,
           use_real_line_count := use_real_line_count })
  else .error .assertFail

-- ==================== ImageBox / Spacer sizing (plot.py lines 1264-1349) ====================

/-- The image sizing mode of an `ImageBox`. -/
inductive ImageMode where
  | fit
  | fill
  | original
deriving DecidableEq, Repr

/-- The configuration of an `ImageBox`: the decoded source image's pixel size
and the sizing mode. -/
structure ImageCfg where
  img_w : Int
  img_h : Int
  image_size_mode : ImageMode
deriving DecidableEq, Repr

/-- `ImageBox._get_content_size` (plot.py lines 1312-1330): `original` keeps
the bitmap size; `fit` requires at least one explicit dimension (assert at
measurement time), uses `1000000` as the sentinel for a missing/falsy bound,
and scales uniformly by the minimum ratio; `fill` with both dimensions truthy
stretches exactly, otherwise scales by the maximum ratio. Zero image
dimensions would raise `ZeroDivisionError` in the ratio computation. -/
def image_content_size (a : Attrs) (cfg : ImageCfg) : Except PErr (Int × Int) :=
  let w := cfg.img_w
  let h := cfg.img_h
  match cfg.image_size_mode with
  | .original => .ok (w, h)
  | .fit =>
    if a.w = none ∧ a.h = none then .error .assertFail
    else if w = 0 ∨ h = 0 then .error .zeroDiv
    else
      let tw : Int := if truthyO a.w then a.w.getD 0 - a.hpadding * 2 else 1000000
      let th : Int := if truthyO a.h then a.h.getD 0 - a.vpadding * 2 else 1000000
      let scale : ℚ := min ((tw : ℚ) / (w : ℚ)) ((th : ℚ) / (h : ℚ))
      .ok (truncQ ((w : ℚ) * scale), truncQ ((h : ℚ) * scale))
  | .fill =>
    if a.w = none ∧ a.h = none then .error .assertFail
    else if truthyO a.w ∧ truthyO a.h then
      .ok (a.w.getD 0 - a.hpadding * 2, a.h.getD 0 - a.vpadding * 2)
    else if w = 0 ∨ h = 0 then .error .zeroDiv
    else
      let tw : Int := if truthyO a.w then a.w.getD 0 - a.hpadding * 2 else 1000000
      let th : Int := if truthyO a.h then a.h.getD 0 - a.vpadding * 2 else 1000000
      let scale : ℚ := max ((tw : ℚ) / (w : ℚ)) ((th : ℚ) / (h : ℚ))
      .ok (truncQ ((w : ℚ) * scale), truncQ ((h : ℚ) * scale))

/-- `ImageBox.__init__` / `set_image_size_mode` (plot.py lines 1265-1310):
the mode token is checked eagerly; a missing mode defaults to `fit` when a
truthy size component was given and `original` otherwise. No dimension
requirement is checked at construction time. -/
def ImageBox.mk_checked (img_w img_h : Int) (image_size_mode : Option String)
    (size : Option (Option Int × Option Int)) : Except PErr (Attrs × ImageCfg) :=
  let a0 : Attrs := { vmargin := 0, hmargin := 0, vpadding := 0, hpadding := 0 }
  let a : Attrs := match size with
    | some (sw, sh) => { a0 with w := sw, h := sh }
    | none => a0
  match image_size_mode with
  | none =>
    let mode : ImageMode := match size with
      | some (sw, sh) => if truthyO sw ∨ truthyO sh then .fit else .original
      | none => .original
    .ok (a, { img_w := img_w, img_h := img_h, image_size_mode := mode })
  | some m =>
    if m = "fit" then .ok (a, { img_w := img_w, img_h := img_h, image_size_mode := .fit })
    else if m = "fill" then .ok (a, { img_w := img_w, img_h := img_h, image_size_mode := .fill })
    else if m = "original" then .ok (a, { img_w := img_w, img_h := img_h, image_size_mode := .original })
    else .error .assertFail

/-- `Spacer._get_content_size` (plot.py lines 1345-1346): `w - 2*hpadding`
and `h - 2*vpadding`; a `None` dimension would raise `TypeError` in the
subtraction. -/
def spacer_content_size (a : Attrs) : Except PErr (Int × Int) :=
  match a.w, a.h with
  | some wv, some hv => .ok (wv - 2 * a.hpadding, hv - 2 * a.vpadding)
  | _, _ => .error .typeErr

-- ==================== Container configuration (plot.py lines 802-1125) ====================

/-- Item sizing mode of the linear and grid containers. -/
inductive SizeMode where
  | fixed
  | expand
deriving DecidableEq, Repr

/-- Configuration of `HSplit` / `VSplit`: optional ratio list, separator gap,
sizing mode and per-item alignment. -/
structure SplitCfg where
  ratios : Option (List ℚ)
  sep : Int
  item_size_mode : SizeMode
  item_halign : HA
  item_valign : VA

/-- Configuration of `Grid`: optional row/column counts, sizing mode,
separators, per-item alignment and the column-major `vertical` flag. -/
structure GridCfg where
  row_count : Option Int
  col_count : Option Int
  item_size_mode : SizeMode
  hsep : Int
  vsep : Int
  item_halign : HA
  item_valign : VA
  vertical : Bool
deriving DecidableEq, Repr

/-- `Grid.__init__` (plot.py lines 1009-1025): asserts eagerly that row and
column counts are not both truthy, checks the sizing mode and the alignment
token. -/
def Grid.mk_checked (row_count col_count : Option Int) (item_size_mode : String)
    (item_align : String) (hsep vsep : Int) (vertical : Bool) :
    Except PErr GridCfg := do
  if truthyO row_count ∧ truthyO col_count then throw .assertFail
  if ¬ (item_size_mode = "expand" ∨ item_size_mode = "fixed") then throw .assertFail
  let (ha, va) ← parse_align item_align
  pure { row_count := row_count, col_count := col_count,
         item_size_mode := if item_size_mode = "expand" then .expand else .fixed,
         hsep := hsep, vsep := vsep, item_halign := ha, item_valign := va,
         vertical := vertical }

/-- `HSplit.__init__` / `VSplit.__init__` (plot.py lines 803-814, 906-918):
check the sizing mode and alignment token eagerly; no dimension requirement
is checked at construction time. -/
def Split.mk_checked (ratios : Option (List ℚ)) (sep : Int)
    (item_size_mode : String) (item_align : String) : Except PErr SplitCfg := do
  if ¬ (item_size_mode = "expand" ∨ item_size_mode = "fixed") then throw .assertFail
  let (ha, va) ← parse_align item_align
  pure { ratios := ratios, sep := sep,
         item_size_mode := if item_size_mode = "expand" then .expand else .fixed,
         item_halign := ha, item_valign := va }

-- ==================== Container size computations ====================

/-- `Frame._get_content_size` (plot.py lines 773-778) from the children's
self sizes: component-wise maximum starting at `(0, 0)`. -/
def frame_content (ss : List (Int × Int)) : Int × Int :=
  ss.foldl (fun acc s => (max acc.1 s.1, max acc.2 s.2)) (0, 0)

/-- `HSplit._get_item_sizes` (plot.py lines 853-868) from the children's self
sizes: ratios default to the children's self widths; in `expand` mode the
explicit width (asserted present) minus separators and padding is divided by
the ratio sum (`ZeroDivisionError` when it is zero); in `fixed` mode the unit
width is the maximum of width/ratio over positive ratios. Every item gets the
maximal self height. -/
def hsplit_item_sizes (a : Attrs) (cfg : SplitCfg) (ss : List (Int × Int)) :
    Except PErr (List (Int × Int)) := do
  let ratios : List ℚ := match cfg.ratios with
    | some rs => rs
    | none => ss.map (fun s => ((s.1 : Int) : ℚ))
  let unit_w : ℚ ←
    match cfg.item_size_mode with
    | .expand =>
      match a.w with
      | none => throw .assertFail
      | some wv =>
        let rsum := ratios.sum
        if rsum = 0 then throw .zeroDiv
        else pure ((((wv - cfg.sep * ((ratios.length : Int) - 1) - a.hpadding * 2) : Int) : ℚ) / rsum)
    | .fixed =>
      pure ((ratios.zip ss).foldl
        (fun acc rs => if 0 < rs.1 then max acc ((rs.2.1 : ℚ) / rs.1) else acc) 0)
  if ss.isEmpty then throw .valueErr
  let hmax := (ss.map Prod.snd).foldl max ((ss.headD (0, 0)).2)
  pure ((ratios.zip ss).map (fun rs => (truncQ (unit_w * rs.1), hmax)))

/-- `VSplit._get_item_sizes` (plot.py lines 956-971): the transposed variant
of `hsplit_item_sizes`. -/
def vsplit_item_sizes (a : Attrs) (cfg : SplitCfg) (ss : List (Int × Int)) :
    Except PErr (List (Int × Int)) := do
  let ratios : List ℚ := match cfg.ratios with
    | some rs => rs
    | none => ss.map (fun s => ((s.2 : Int) : ℚ))
  let unit_h : ℚ ←
    match cfg.item_size_mode with
    | .expand =>
      match a.h with
      | none => throw .assertFail
      | some hv =>
        let rsum := ratios.sum
        if rsum = 0 then throw .zeroDiv
        else pure ((((hv - cfg.sep * ((ratios.length : Int) - 1) - a.vpadding * 2) : Int) : ℚ) / rsum)
    | .fixed =>
      pure ((ratios.zip ss).foldl
        (fun acc rs => if 0 < rs.1 then max acc ((rs.2.2 : ℚ) / rs.1) else acc) 0)
  if ss.isEmpty then throw .valueErr
  let wmax := (ss.map Prod.fst).foldl max ((ss.headD (0, 0)).1)
  pure ((ratios.zip ss).map (fun rs => (wmax, truncQ (unit_h * rs.1))))

/-- `HSplit._get_content_size` (plot.py lines 870-874) from the item sizes:
widths summed plus separators, heights maximised (`ValueError` on an empty
size list, as `max()` of an empty sequence). -/
def hsplit_content (sep : Int) (sizes : List (Int × Int)) : Except PErr (Int × Int) :=
  match sizes with
  | [] => .error .valueErr
  | s :: rest =>
    .ok ((sizes.map Prod.fst).sum + sep * ((sizes.length : Int) - 1),
         (rest.map Prod.snd).foldl max s.2)

/-- `VSplit._get_content_size` (plot.py lines 973-977): transposed. -/
def vsplit_content (sep : Int) (sizes : List (Int × Int)) : Except PErr (Int × Int) :=
  match sizes with
  | [] => .error .valueErr
  | s :: rest =>
    .ok ((rest.map Prod.fst).foldl max s.1,
         (sizes.map Prod.snd).sum + sep * ((sizes.length : Int) - 1))

/-- `Grid._get_grid_rc_and_size` (plot.py lines 1076-1091) from the number of
items and their self sizes: asserts exactly one of row/column count truthy,
derives the other by ceiling division (Python `//` is `Int.fdiv`); in
`expand` mode asserts both explicit dimensions present (`is not None`) and
divides the available extent per cell (`ZeroDivisionError` on a zero count);
in `fixed` mode the cell is the component-wise maximum of the self sizes.
This first helper is the derivation of the missing count by ceiling
division (Python `//` is `Int.fdiv`) from the item count `n` and the raw
(`getD 0`) row/column attributes. -/
def grid_derive_rc (n rv cv : Int) : Int × Int :=
  let r : Int := if rv = 0 then (n + cv - 1).fdiv cv else rv
  let c : Int := if cv = 0 then (n + r - 1).fdiv r else cv
  (r, c)

/-- `Grid._get_grid_rc_and_size` continued: the full row/column and cell-size
computation (see `grid_derive_rc` for the count derivation). -/
def grid_rc_size (a : Attrs) (cfg : GridCfg) (ss : List (Int × Int)) :
    Except PErr ((Int × Int) × (Int × Int)) :=
  let n : Int := (ss.length : Int)
  let rv : Int := (cfg.row_count).getD 0
  let cv : Int := (cfg.col_count).getD 0
  if ¬ ((rv ≠ 0 ∧ cv = 0) ∨ (cv ≠ 0 ∧ rv = 0)) then .error .assertFail
  else
    let r : Int := (grid_derive_rc n rv cv).1
    let c : Int := (grid_derive_rc n rv cv).2
    match cfg.item_size_mode with
    | .expand =>
      if a.w = none ∨ a.h = none then .error .assertFail
      else if c = 0 then .error .zeroDiv
      else if r = 0 then .error .zeroDiv
      else
        let gw : ℚ := (((a.w.getD 0 - cfg.hsep * (c - 1) - a.hpadding * 2) : Int) : ℚ) / (c : ℚ)
        let gh : ℚ := (((a.h.getD 0 - cfg.vsep * (r - 1) - a.vpadding * 2) : Int) : ℚ) / (r : ℚ)
        .ok ((r, c), (truncQ gw, truncQ gh))
    | .fixed =>
      let gw := ss.foldl (fun acc s => max acc s.1) 0
      let gh := ss.foldl (fun acc s => max acc s.2) 0
      .ok ((r, c), (gw, gh))

/-- The cell (row, column) an item lands in, from `Grid._draw_content`
(plot.py lines 1100-1103): `(idx // c, idx % c)` in row-major order and
`(idx % r, idx // r)` in column-major (`vertical`) order. -/
def grid_cell (vertical : Bool) (r c idx : Int) : Int × Int :=
  if vertical then (idx.fmod r, idx.fdiv r) else (idx.fdiv c, idx.fmod c)

-- ==================== The widget tree and its size protocol ====================

-- `Widget` subclasses with children hold them in a `WidgetList`; leaves carry
-- their configuration records. This mirrors `Frame`, `HSplit`, `VSplit`,
-- `Grid`, `TextBox`, `ImageBox`, `Spacer` of plot.py.
mutual
inductive Widget where
  | frame (a : Attrs) (items : WidgetList)
  | hsplit (a : Attrs) (cfg : SplitCfg) (items : WidgetList)
  | vsplit (a : Attrs) (cfg : SplitCfg) (items : WidgetList)
  | grid (a : Attrs) (cfg : GridCfg) (items : WidgetList)
  | textbox (a : Attrs) (cfg : TextCfg)
  | imagebox (a : Attrs) (cfg : ImageCfg)
  | spacer (a : Attrs)
inductive WidgetList where
  | nil
  | cons (w : Widget) (ws : WidgetList)
end

/-- The attribute record of a widget node. -/
def Widget.attrs : Widget → Attrs
  | .frame a _ => a
  | .hsplit a _ _ => a
  | .vsplit a _ _ => a
  | .grid a _ _ => a
  | .textbox a _ => a
  | .imagebox a _ => a
  | .spacer a => a

/-- Emptiness test for a widget list (`if not self.items`). -/
def WidgetList.isNil : WidgetList → Bool
  | .nil => true
  | .cons _ _ => false

/-- Length of a widget list (`len(self.items)`). -/
def WidgetList.length : WidgetList → Nat
  | .nil => 0
  | .cons _ ws => 1 + ws.length

mutual
/-- `_get_content_size` of each widget subclass (plot.py lines 773-778,
870-874, 973-977, 1093-1095, 1224-1237, 1312-1330, 1345-1346). -/
def Widget.content_size : Widget → Except PErr (Int × Int)
  | .frame _ items => do
    pure (frame_content (← items.self_sizes))
  | .hsplit a cfg items =>
    if items.isNil then pure (0, 0)
    else do
      let ss ← items.self_sizes
      let sizes ← hsplit_item_sizes a cfg ss
      hsplit_content cfg.sep sizes
  | .vsplit a cfg items =>
    if items.isNil then pure (0, 0)
    else do
      let ss ← items.self_sizes
      let sizes ← vsplit_item_sizes a cfg ss
      vsplit_content cfg.sep sizes
  | .grid a cfg items => do
    let ss ← items.self_sizes
    let ((r, c), (gw, gh)) ← grid_rc_size a cfg ss
    pure (c * gw + cfg.hsep * (c - 1), r * gh + cfg.vsep * (r - 1))
  | .textbox a cfg => pure (text_content_size a cfg)
  | .imagebox a cfg => image_content_size a cfg
  | .spacer a => spacer_content_size a
/-- The `_get_self_size` values of a list of child widgets, in order. -/
def WidgetList.self_sizes : WidgetList → Except PErr (List (Int × Int))
  | .nil => pure []
  | .cons w ws => do
    let cs ← w.content_size
    let s ← self_size_of w.attrs cs
    let rest ← ws.self_sizes
    pure (s :: rest)
end

/-- `Widget._get_self_size` (plot.py lines 665-674) of a widget node. -/
def Widget.self_size (w : Widget) : Except PErr (Int × Int) := do
  self_size_of w.attrs (← w.content_size)

/-- `Widget._get_content_pos` (plot.py lines 676-693): position of the
content inside the padded box, per content alignment (Python `//` floors). -/
def Widget.content_pos (w : Widget) : Except PErr (Int × Int) := do
  let (sw, sh) ← w.self_size
  let a := w.attrs
  let bw := sw - a.hpadding * 2 - a.hmargin * 2
  let bh := sh - a.vpadding * 2 - a.vmargin * 2
  let (cw, ch) ← w.content_size
  let cx : Int := match a.content_halign with
    | .l => 0
    | .r => bw - cw
    | .c => (bw - cw).fdiv 2
  let cy : Int := match a.content_valign with
    | .t => 0
    | .b => bh - ch
    | .c => (bh - ch).fdiv 2
  pure (cx, cy)

-- ==================== Drawing (region-stack semantics, plot.py lines 695-1349) ====================

/-- The anchor-translated offset of `Widget.draw` (plot.py lines 727-738):
the widget `offset` is interpreted relative to one of the 9 anchor points of
the current region (Python `//` floors). -/
def anchored_offset (a : Attrs) (p : Painter) : Int × Int :=
  let ox : Int := match a.offset_xanchor with
    | .l => a.offset.1
    | .r => a.offset.1 - p.size.1
    | .c => a.offset.1 - p.size.1.fdiv 2
  let oy : Int := match a.offset_yanchor with
    | .t => a.offset.2
    | .b => a.offset.2 - p.size.2
    | .c => a.offset.2 - p.size.2.fdiv 2
  (ox, oy)

/-- The prelude of `Widget.draw` (plot.py lines 724-746): assert that the
painter's region size equals the widget's self size, then push the four
regions — anchor move, margin shrink (around which `_draw_self` paints the
background, a region-neutral operation), padding shrink, and the move to the
content position. -/
def draw_prelude (w : Widget) (p : Painter) : Except PErr Painter := do
  let s ← w.self_size
  if p.size ≠ s then throw .assertFail
  else do
    let a := w.attrs
    let cpos ← w.content_pos
    let p1 := p.move_region (anchored_offset a p) none
    let p2 := p1.shrink_region (a.hmargin, a.vmargin)
    let p3 := p2.shrink_region (a.hpadding, a.vpadding)
    pure (p3.move_region cpos none)

/-- Alignment offset of a child of size `(iw, ih)` inside a box of size
`(bw, bh)` (the common pattern of the container `_draw_content` loops). -/
def align_xy (ha : HA) (va : VA) (bw bh iw ih : Int) : Int × Int :=
  let x : Int := match ha with
    | .l => 0
    | .r => bw - iw
    | .c => (bw - iw).fdiv 2
  let y : Int := match va with
    | .t => 0
    | .b => bh - ih
    | .c => (bh - ih).fdiv 2
  (x, y)

/-- The per-line region pushes of `TextBox._draw_content`
(plot.py lines 1250-1261): each line moves to an aligned region of the line's
rendered size and restores it. Text rendering itself is region-neutral. -/
def draw_text_lines (cw : Char → Nat) (font_size line_sep : Int) (ha : HA) :
    List (List Char) → Int → Painter → Painter
  | [], _, p => p
  | line :: rest, y, p =>
    let lw := textW cw line
    let x : Int := match ha with
      | .l => 0
      | .r => p.size.1 - lw
      | .c => (p.size.1 - lw).fdiv 2
    let p1 := (p.move_region (x, y) (some (lw, font_size))).restore_region 1
    draw_text_lines cw font_size line_sep ha rest (y + font_size + line_sep) p1

/-- `TextBox._draw_content` (plot.py lines 1239-1261): vertical block
alignment, then the per-line pushes. -/
def textbox_draw_content (a : Attrs) (cfg : TextCfg) (p : Painter) : Painter :=
  let lines := get_lines a cfg
  let text_h := (cfg.font_size + cfg.line_sep) * (lines.length : Int) - cfg.line_sep
  let start_y : Int := match a.content_valign with
    | .t => 0
    | .b => p.size.2 - text_h
    | .c => (p.size.2 - text_h).fdiv 2
  draw_text_lines cfg.char_w cfg.font_size cfg.line_sep a.content_halign lines start_y p

mutual
/-- `Widget.draw` (plot.py lines 724-749): the prelude's four region pushes,
the subclass `_draw_content`, then `restore_region(4)`. Only the region-stack
effect is modelled; pixel writes are region-neutral. -/
def Widget.draw : Widget → Painter → Except PErr Painter
  | .frame a items, p => do
    let p4 ← draw_prelude (.frame a items) p
    let cs ← Widget.content_size (.frame a items)
    let p5 ← WidgetList.draw_in_frame items a cs p4
    pure (p5.restore_region 4)
  | .hsplit a cfg items, p => do
    let p4 ← draw_prelude (.hsplit a cfg items) p
    if items.isNil then pure (p4.restore_region 4)
    else do
      let ss ← items.self_sizes
      let sizes ← hsplit_item_sizes a cfg ss
      let p5 ← WidgetList.draw_in_hsplit items sizes cfg 0 p4
      pure (p5.restore_region 4)
  | .vsplit a cfg items, p => do
    let p4 ← draw_prelude (.vsplit a cfg items) p
    if items.isNil then pure (p4.restore_region 4)
    else do
      let ss ← items.self_sizes
      let sizes ← vsplit_item_sizes a cfg ss
      let p5 ← WidgetList.draw_in_vsplit items sizes cfg 0 p4
      pure (p5.restore_region 4)
  | .grid a cfg items, p => do
    let p4 ← draw_prelude (.grid a cfg items) p
    let ss ← items.self_sizes
    let rc ← grid_rc_size a cfg ss
    let p5 ← WidgetList.draw_in_grid items cfg rc 0 p4
    pure (p5.restore_region 4)
  | .textbox a cfg, p => do
    let p4 ← draw_prelude (.textbox a cfg) p
    pure ((textbox_draw_content a cfg p4).restore_region 4)
  | .imagebox a cfg, p => do
    let p4 ← draw_prelude (.imagebox a cfg) p
    let _ ← image_content_size a cfg
    pure (p4.restore_region 4)
  | .spacer a, p => do
    let p4 ← draw_prelude (.spacer a) p
    pure (p4.restore_region 4)
/-- `Frame._draw_content` (plot.py lines 780-799): each child is moved to an
aligned region of its own self size, drawn, and the region restored. -/
def WidgetList.draw_in_frame : WidgetList → Attrs → (Int × Int) → Painter →
    Except PErr Painter
  | .nil, _, _, p => pure p
  | .cons w ws, a, cs, p => do
    let (iw, ih) ← w.self_size
    let xy := align_xy a.content_halign a.content_valign cs.1 cs.2 iw ih
    let p1 := p.move_region xy (some (iw, ih))
    let p2 ← w.draw p1
    WidgetList.draw_in_frame ws a cs (p2.restore_region 1)
/-- `HSplit._draw_content` (plot.py lines 876-902): move to the item slot,
draw the optional item background (region-neutral), move to the aligned item
region, draw the child, restore both regions, advance the cursor. The size
list is consumed in `zip`-truncation style. -/
def WidgetList.draw_in_hsplit : WidgetList → List (Int × Int) → SplitCfg → Int →
    Painter → Except PErr Painter
  | .nil, _, _, _, p => pure p
  | .cons _ _, [], _, _, p => pure p
  | .cons w ws, sz :: szs, cfg, cur_x, p => do
    let (iw, ih) ← w.self_size
    let p1 := p.move_region (cur_x, 0) (some sz)
    let xy := align_xy cfg.item_halign cfg.item_valign sz.1 sz.2 iw ih
    let p2 := p1.move_region xy (some (iw, ih))
    let p3 ← w.draw p2
    WidgetList.draw_in_hsplit ws szs cfg (cur_x + sz.1 + cfg.sep) (p3.restore_region 2)
/-- `VSplit._draw_content` (plot.py lines 979-1005): transposed. -/
def WidgetList.draw_in_vsplit : WidgetList → List (Int × Int) → SplitCfg → Int →
    Painter → Except PErr Painter
  | .nil, _, _, _, p => pure p
  | .cons _ _, [], _, _, p => pure p
  | .cons w ws, sz :: szs, cfg, cur_y, p => do
    let (iw, ih) ← w.self_size
    let p1 := p.move_region (0, cur_y) (some sz)
    let xy := align_xy cfg.item_halign cfg.item_valign sz.1 sz.2 iw ih
    let p2 := p1.move_region xy (some (iw, ih))
    let p3 ← w.draw p2
    WidgetList.draw_in_vsplit ws szs cfg (cur_y + sz.2 + cfg.sep) (p3.restore_region 2)
/-- `Grid._draw_content` (plot.py lines 1097-1125): compute the cell of the
running index (Python `//`/`%` raise `ZeroDivisionError` on a zero divisor),
move to the cell region, then to the aligned item region, draw the child,
restore both regions. -/
def WidgetList.draw_in_grid : WidgetList → GridCfg → ((Int × Int) × (Int × Int)) →
    Int → Painter → Except PErr Painter
  | .nil, _, _, _, p => pure p
  | .cons w ws, cfg, ((r, c), (gw, gh)), idx, p =>
    if (if cfg.vertical then r else c) = 0 then throw .zeroDiv
    else do
    let ij := grid_cell cfg.vertical r c idx
    let p1 := p.move_region (ij.2 * (gw + cfg.hsep), ij.1 * (gh + cfg.vsep)) (some (gw, gh))
    let (iw, ih) ← w.self_size
    let xy := align_xy cfg.item_halign cfg.item_valign gw gh iw ih
    let p2 := p1.move_region xy (some (iw, ih))
    let p3 ← w.draw p2
    WidgetList.draw_in_grid ws cfg ((r, c), (gw, gh)) (idx + 1) (p3.restore_region 2)
end

/-- Widgets whose `_draw_content` performs no region operation at all
(`ImageBox` pastes in place, `Spacer` draws nothing); for these the only
pushes during `draw` are the four of the base method. -/
def Widget.content_region_neutral : Widget → Prop
  | .imagebox _ _ => True
  | .spacer _ => True
  | _ => False

mutual
/-- Positivity of every explicitly-set grid row/column count in a widget
tree (real layouts always use positive counts; a negative count would make
Python derive a zero complementary count and crash with `ZeroDivisionError`
inside `Grid._draw_content`). -/
def Widget.safe_counts : Widget → Prop
  | .frame _ items => items.safe_counts
  | .hsplit _ _ items => items.safe_counts
  | .vsplit _ _ items => items.safe_counts
  | .grid _ cfg items =>
    0 ≤ cfg.row_count.getD 0 ∧ 0 ≤ cfg.col_count.getD 0 ∧ items.safe_counts
  | .textbox _ _ => True
  | .imagebox _ _ => True
  | .spacer _ => True

/-- List version of `Widget.safe_counts`. -/
def WidgetList.safe_counts : WidgetList → Prop
  | .nil => True
  | .cons w ws => w.safe_counts ∧ ws.safe_counts
end

/-- `Canvas.get_img` (plot.py lines 1359-1368), modelled at the level of the
produced image's size: compute the canvas self size, assert the pixel budget
`size[0] * size[1] < 4096 * 4096` *before* the buffer of that size is
allocated, allocate (`Image.new`) and draw into a fresh painter over the
buffer, and finally resize by a truthy scale factor. -/
def Canvas.get_img (c : Widget) (scale : Option ℚ) : Except PErr (Int × Int) := do
  let size ← c.self_size
  if ¬ (size.1 * size.2 < 4096 * 4096) then throw .assertFail
  else do
    let p0 : Painter := ⟨size, (0, 0), size, [], 0, 0⟩
    let _ ← c.draw p0
    match scale with
    | some s => if s ≠ 0 then pure (truncQ ((size.1 : ℚ) * s), truncQ ((size.2 : ℚ) * s))
                else pure size
    | none => pure size

/-- Region-state preservation between two painter states: the active region
and the stack are identical, and the instrumentation counters advanced by a
matching number of pushes and pops. -/
def pres (p q : Painter) : Prop :=
  q.img_size = p.img_size ∧ q.offset = p.offset ∧ q.size = p.size ∧ q.stack = p.stack ∧
  ∃ k, q.pushes = p.pushes + k ∧ q.pops = p.pops + k

-- ==================== Theorems ====================

/-- Bind on `Except` yields `ok` exactly when both stages do. -/
theorem except_bind_ok {ε α β : Type} {x : Except ε α} {f : α → Except ε β} {b : β} :
    (x >>= f) = .ok b ↔ ∃ a, x = .ok a ∧ f a = .ok b := by
  cases x with
  | error e => simp [Bind.bind, Except.bind]
  | ok a => simp [Bind.bind, Except.bind]

/-- Pure on `Except` is `ok`. -/
theorem except_pure_eq {ε α : Type} (a : α) : (pure a : Except ε α) = .ok a := rfl

/-- A single `restore_region` pop on a non-empty stack. -/
theorem restore_region_one (q : Painter) (o s : Int × Int)
    (rest : List ((Int × Int) × (Int × Int))) (h : q.stack = (o, s) :: rest) :
    q.restore_region 1 = { q with offset := o, size := s, stack := rest, pops := q.pops + 1 } := by
  obtain ⟨im, off, sz, st, pu, po⟩ := q
  simp only at h
  subst h
  rfl

/-- `restore_region 2` on a stack with at least two entries. -/
theorem restore_region_two (q : Painter) (e2 : (Int × Int) × (Int × Int)) (o s : Int × Int)
    (rest : List ((Int × Int) × (Int × Int))) (h : q.stack = e2 :: (o, s) :: rest) :
    q.restore_region 2 = { q with offset := o, size := s, stack := rest, pops := q.pops + 2 } := by
  obtain ⟨im, off, sz, st, pu, po⟩ := q
  obtain ⟨eo, es⟩ := e2
  simp only at h
  subst h
  rfl

/-- `restore_region 4` on a stack with at least four entries: the fourth
entry becomes the active region, the stack below it is untouched. -/
theorem restore_region_four (q : Painter) (e2 e3 e4 : (Int × Int) × (Int × Int))
    (o s : Int × Int) (rest : List ((Int × Int) × (Int × Int)))
    (h : q.stack = e4 :: e3 :: e2 :: (o, s) :: rest) :
    q.restore_region 4 = { q with offset := o, size := s, stack := rest, pops := q.pops + 4 } := by
  obtain ⟨im, off, sz, st, pu, po⟩ := q
  obtain ⟨eo2, es2⟩ := e2
  obtain ⟨eo3, es3⟩ := e3
  obtain ⟨eo4, es4⟩ := e4
  simp only at h
  subst h
  rfl

/-- `pres` is reflexive. -/
theorem pres_refl (p : Painter) : pres p p :=
  ⟨rfl, rfl, rfl, rfl, 0, rfl, rfl⟩

/-- `pres` is transitive. -/
theorem pres_trans {p q r : Painter} (h1 : pres p q) (h2 : pres q r) : pres p r := by
  obtain ⟨i1, o1, s1, st1, k1, pu1, po1⟩ := h1
  obtain ⟨i2, o2, s2, st2, k2, pu2, po2⟩ := h2
  exact ⟨i2.trans i1, o2.trans o1, s2.trans s1, st2.trans st1, k1 + k2,
    by rw [pu2, pu1]; ring, by rw [po2, po1]; ring⟩

/-- C9: for every painter state and every integer delta, `shrink_region(d)`
followed by `expand_region(d)` restores the original offset and size while
pushing two entries onto the region stack; shrink adds `d` to the offset and
subtracts `2d` from the size per axis, and expand is exactly the inverse. -/
theorem claim_c9_shrink_expand_inverse (p : Painter) (d : Int × Int) :
    ((p.shrink_region d).expand_region d).offset = p.offset ∧
    ((p.shrink_region d).expand_region d).size = p.size ∧
    ((p.shrink_region d).expand_region d).stack.length = p.stack.length + 2 ∧
    (p.shrink_region d).offset = (p.offset.1 + d.1, p.offset.2 + d.2) ∧
    (p.shrink_region d).size = (p.size.1 - d.1 * 2, p.size.2 - d.2 * 2) ∧
    ((p.shrink_region d).expand_region d).offset =
      ((p.shrink_region d).offset.1 - d.1, (p.shrink_region d).offset.2 - d.2) ∧
    ((p.shrink_region d).expand_region d).size =
      ((p.shrink_region d).size.1 + d.1 * 2, (p.shrink_region d).size.2 + d.2 * 2) := by
  obtain ⟨im, ⟨ox, oy⟩, ⟨sx, sy⟩, st, pu, po⟩ := p
  obtain ⟨dx, dy⟩ := d
  refine ⟨?_, ?_, ?_, rfl, rfl, rfl, rfl⟩ <;>
    simp [Painter.shrink_region, Painter.expand_region, Painter.set_region]

/-- C1: for any widget attributes and content size, when the content does not
exceed the explicit bounds, `_get_self_size` returns the bounded content size
(the `w/h`-derived limit when set, the content size otherwise) plus twice
padding plus twice margin on each axis; and when the content width (resp.
height) exceeds `w - 2*hpadding` (resp. `h - 2*vpadding`) for an explicit
`w` (resp. `h`), it raises the sizing `ValueError` instead. -/
theorem claim_c1_self_size (a : Attrs) (cw ch : Int) :
    ((∀ wv, a.w = some wv → cw ≤ wv - a.hpadding * 2) →
     (∀ hv, a.h = some hv → ch ≤ hv - a.vpadding * 2) →
     self_size_of a (cw, ch) =
       .ok ((match a.w with | some wv => wv - a.hpadding * 2 | none => cw)
              + a.hpadding * 2 + a.hmargin * 2,
            (match a.h with | some hv => hv - a.vpadding * 2 | none => ch)
              + a.vpadding * 2 + a.vmargin * 2)) ∧
    (∀ wv, a.w = some wv → wv - a.hpadding * 2 < cw →
      self_size_of a (cw, ch) = .error .valueErr) ∧
    (∀ hv, a.h = some hv → hv - a.vpadding * 2 < ch →
      self_size_of a (cw, ch) = .error .valueErr) := by
  refine ⟨?_, ?_, ?_⟩
  · intro h1 h2
    rcases hw : a.w with _ | wv <;> rcases hh : a.h with _ | hv
    · simp only [self_size_of, hw, hh]
      rw [if_neg (by omega)]
      simp only [Except.ok.injEq, Prod.mk.injEq]
      constructor <;> ring
    · have t2 := h2 hv hh
      simp only [self_size_of, hw, hh]
      rw [if_neg (by push_neg; exact ⟨le_refl _, t2⟩)]
      simp only [Except.ok.injEq, Prod.mk.injEq]
      constructor <;> ring
    · have t1 := h1 wv hw
      simp only [self_size_of, hw, hh]
      rw [if_neg (by push_neg; exact ⟨t1, le_refl _⟩)]
      simp only [Except.ok.injEq, Prod.mk.injEq]
      constructor <;> ring
    · have t1 := h1 wv hw
      have t2 := h2 hv hh
      simp only [self_size_of, hw, hh]
      rw [if_neg (by push_neg; exact ⟨t1, t2⟩)]
      simp only [Except.ok.injEq, Prod.mk.injEq]
      constructor <;> ring
  · intro wv hw hlt
    simp only [self_size_of, hw]
    rw [if_pos (by left; exact hlt)]
  · intro hv hh hlt
    simp only [self_size_of, hh]
    rw [if_pos (by right; exact hlt)]

/-- Witness for C1: a widget with explicit width 20, paddings (3, 1),
margins (2, 5) and content size (5, 7) measures `(20 - 6 + 6 + 4, 7 + 2 + 10)`,
and content width 15 > 20 - 2*3 raises the sizing error. -/
theorem claim_c1_self_size_witness :
    self_size_of { w := some 20, hpadding := 3, vpadding := 1, hmargin := 2, vmargin := 5 } (5, 7)
      = .ok (24, 19) ∧
    self_size_of { w := some 20, hpadding := 3, vpadding := 1, hmargin := 2, vmargin := 5 } (15, 7)
      = .error .valueErr := by
  constructor
  · have h := (claim_c1_self_size
      { w := some 20, hpadding := 3, vpadding := 1, hmargin := 2, vmargin := 5 } 5 7).1
      (by intro wv hwv; cases hwv; decide) (by intro hv hhv; cases hhv)
    simpa using h
  · exact (claim_c1_self_size
      { w := some 20, hpadding := 3, vpadding := 1, hmargin := 2, vmargin := 5 } 15 7).2.1
      20 rfl (by decide)

/-- The clamp lands inside the interval. -/
theorem qclip_mem (x lo hi : ℚ) (h : lo ≤ hi) : lo ≤ qclip x lo hi ∧ qclip x lo hi ≤ hi := by
  unfold qclip
  constructor
  · exact le_min h (le_max_left _ _)
  · exact min_le_left _ _

/-- Clamping a value already inside the interval is the identity. -/
theorem qclip_eq_self (x lo hi : ℚ) (h1 : lo ≤ x) (h2 : x ≤ hi) : qclip x lo hi = x := by
  unfold qclip
  rw [max_eq_right h1, min_eq_right h2]

/-- `uint8` conversion of an integral value in `[0, 255]` is the identity. -/
theorem u8cast_intCast (n : ℤ) (h0 : 0 ≤ n) (h255 : n ≤ 255) : u8cast ((n : ℤ) : ℚ) = n := by
  unfold u8cast truncQ
  rw [if_neg (by push_neg; exact_mod_cast h0)]
  rw [Int.floor_intCast]
  exact Int.emod_eq_of_lt h0 (by omega)

/-- C5: per pixel channel, `RadialGradient.get_colors` maps distance 0 to
`c2` and any distance ≥ radius to `c1`, interpolating linearly in the clamped
normalised distance in between — exactly the inverse of the
`LinearGradient` convention, whose parameter 0 yields `c1`. -/
theorem claim_c5_radial_gradient (c1 c2 : ℤ) (radius dist : ℚ)
    (hc1a : 0 ≤ c1) (hc1b : c1 ≤ 255) (hc2a : 0 ≤ c2) (hc2b : c2 ≤ 255)
    (hr : 0 < radius) (_hd : 0 ≤ dist) :
    radial_channel c1 c2 0 radius = c2 ∧
    (radius ≤ dist → radial_channel c1 c2 dist radius = c1) ∧
    radial_channel c1 c2 dist radius = linear_channel_at c2 c1 (dist / radius) ∧
    linear_channel_at c1 c2 0 = c1 := by
  have hq1a : (0 : ℚ) ≤ (c1 : ℚ) := by exact_mod_cast hc1a
  have hq1b : (c1 : ℚ) ≤ 255 := by exact_mod_cast hc1b
  have hq2a : (0 : ℚ) ≤ (c2 : ℚ) := by exact_mod_cast hc2a
  have hq2b : (c2 : ℚ) ≤ 255 := by exact_mod_cast hc2b
  refine ⟨?_, ?_, ?_, ?_⟩
  · unfold radial_channel
    rw [zero_div, qclip_eq_self 0 0 1 le_rfl zero_le_one]
    have : (0 : ℚ) * (c1 : ℚ) + (1 - 0) * (c2 : ℚ) = ((c2 : ℤ) : ℚ) := by ring
    rw [this, u8cast_intCast c2 hc2a hc2b]
  · intro hge
    unfold radial_channel
    have h1 : (1 : ℚ) ≤ dist / radius := (one_le_div hr).mpr hge
    have : qclip (dist / radius) 0 1 = 1 := by
      unfold qclip
      rw [max_eq_right (le_trans zero_le_one h1), min_eq_left h1]
    rw [this]
    have : (1 : ℚ) * (c1 : ℚ) + (1 - 1) * (c2 : ℚ) = ((c1 : ℤ) : ℚ) := by ring
    rw [this, u8cast_intCast c1 hc1a hc1b]
  · unfold radial_channel linear_channel_at
    have hmem := qclip_mem (dist / radius) 0 1 zero_le_one
    set d := qclip (dist / radius) 0 1 with hdq
    have hv0 : (0 : ℚ) ≤ (1 - d) * (c2 : ℚ) + d * (c1 : ℚ) := by
      have := hmem.1
      have := hmem.2
      nlinarith
    have hv255 : (1 - d) * (c2 : ℚ) + d * (c1 : ℚ) ≤ 255 := by
      have := hmem.1
      have := hmem.2
      nlinarith
    rw [qclip_eq_self _ 0 255 hv0 hv255]
    congr 1
    ring
  · unfold linear_channel_at
    rw [qclip_eq_self 0 0 1 le_rfl zero_le_one]
    have h1 : ((1 : ℚ) - 0) * (c1 : ℚ) + 0 * (c2 : ℚ) = ((c1 : ℤ) : ℚ) := by ring
    rw [h1, qclip_eq_self _ 0 255 hq1a hq1b, u8cast_intCast c1 hc1a hc1b]

/-- Witness for C5: channels `(c1, c2) = (10, 200)`, radius 2 — the pixel at
the center gets 200 (`c2`) and a pixel at distance 3 ≥ 2 gets 10 (`c1`). -/
theorem claim_c5_radial_gradient_witness :
    radial_channel 10 200 0 2 = 200 ∧ radial_channel 10 200 3 2 = 10 := by
  have h := claim_c5_radial_gradient 10 200 2 3 (by norm_num) (by norm_num)
    (by norm_num) (by norm_num) (by norm_num) (by norm_num)
  exact ⟨h.1, h.2.1 (by norm_num)⟩

/-- Truncation of an integer-valued rational is the integer itself. -/
theorem truncQ_intCast (n : ℤ) : truncQ ((n : ℤ) : ℚ) = n := by
  unfold truncQ
  split
  · exact Int.ceil_intCast n
  · exact Int.floor_intCast n

/-- Counterexample for C6: `ImageBox(image, image_size_mode='fit')` with no
size bound is accepted at configuration time, and the missing-dimension
`assert` only fires later, inside `_get_content_size` — i.e. at measurement
time, refuting the claim that it "never first surfaces at measurement or
draw time". -/
theorem claim_c6_counterexample :
    ImageBox.mk_checked 10 10 (some ("fit")) none =
      .ok ({ vmargin := 0, hmargin := 0, vpadding := 0, hpadding := 0 },
           { img_w := 10, img_h := 10, image_size_mode := .fit }) ∧
    image_content_size { vmargin := 0, hmargin := 0, vpadding := 0, hpadding := 0 }
      { img_w := 10, img_h := 10, image_size_mode := .fit } = .error .assertFail := by
  constructor
  · rfl
  · rfl

/-- C6 (amended): the invalid-alignment-token, invalid-overflow-mode and
row-and-column-both-set conditions are raised eagerly at configuration time
(constructor or setter); but the missing-required-dimension checks of
`ImageBox` `fit`/`fill` and of `HSplit`/`VSplit`/`Grid` `expand` mode are
only raised at measurement time, by the first size computation, after the
constructor has succeeded. -/
theorem claim_c6_config_errors :
    parse_align ("xx") = .error .valueErr ∧
    TextBox.mk_checked [] (fun _ => 1) 16 none 2 true ("fancy") false = .error .assertFail ∧
    Grid.mk_checked (some 2) (some 3) ("fixed") ("c") 8 8 false = .error .assertFail ∧
    (ImageBox.mk_checked 10 10 (some ("fit")) none).isOk = true ∧
    image_content_size { vmargin := 0, hmargin := 0, vpadding := 0, hpadding := 0 }
      { img_w := 10, img_h := 10, image_size_mode := .fit } = .error .assertFail ∧
    image_content_size { vmargin := 0, hmargin := 0, vpadding := 0, hpadding := 0 }
      { img_w := 10, img_h := 10, image_size_mode := .fill } = .error .assertFail ∧
    (Split.mk_checked none 8 ("expand") ("c")).isOk = true ∧
    Widget.content_size
      (.hsplit {} { ratios := none, sep := 8, item_size_mode := .expand,
                    item_halign := .c, item_valign := .c }
        (.cons (.spacer { w := some 1, h := some 1 }) .nil)) = .error .assertFail ∧
    Widget.content_size
      (.vsplit {} { ratios := none, sep := 8, item_size_mode := .expand,
                    item_halign := .c, item_valign := .c }
        (.cons (.spacer { w := some 1, h := some 1 }) .nil)) = .error .assertFail ∧
    (Grid.mk_checked none (some 2) ("expand") ("c") 8 8 false).isOk = true ∧
    Widget.content_size
      (.grid {} { row_count := none, col_count := some 2, item_size_mode := .expand,
                  hsep := 8, vsep := 8, item_halign := .c, item_valign := .c,
                  vertical := false }
        (.cons (.spacer { w := some 1, h := some 1 }) .nil)) = .error .assertFail := by
  refine ⟨rfl, rfl, rfl, rfl, rfl, rfl, rfl, ?_, ?_, rfl, ?_⟩ <;> rfl


/-- Counterexample for C8: an `ImageBox` in `fit` mode over a 1×1 image with
only an explicit width bound of 2000000 px and no padding computes content
size `(1000000, 1000000)` — the `1000000` sentinel that stands in for the
missing height bound caps the scale, so `new_width` is *not* the width
bound. -/
theorem claim_c8_counterexample :
    image_content_size { w := some 2000000 }
      { img_w := 1, img_h := 1, image_size_mode := .fit } = .ok (1000000, 1000000) ∧
    (1000000 : ℤ) ≠ 2000000 := by
  constructor
  · unfold image_content_size
    norm_num [truthyO]
    rw [if_neg (by simp)]
    norm_num [truncQ]
  · decide

/-- C8 (amended): for an `ImageBox` in `fit` mode with only a positive
explicit width bound `w` and zero padding, *provided the `1000000` px height
sentinel does not bind* (`w * ih ≤ 1000000 * iw`), the computed content width
equals the bound and the content height is the aspect-correct height rounded
down — within 1 px of exact aspect (`nh * iw ≤ ih * w < (nh + 1) * iw`). -/
theorem claim_c8_imagebox_fit (a : Attrs) (iw ih wv : Int)
    (hw : a.w = some wv) (hh : a.h = none) (hp : a.hpadding = 0) (hvp : a.vpadding = 0)
    (hwpos : 0 < wv) (hiw : 0 < iw) (hih : 0 < ih)
    (hcap : wv * ih ≤ 1000000 * iw) :
    ∃ nh, image_content_size a { img_w := iw, img_h := ih, image_size_mode := .fit }
        = .ok (wv, nh) ∧
      nh * iw ≤ ih * wv ∧ ih * wv < (nh + 1) * iw := by
  have hiwq : (0:ℚ) < (iw:ℚ) := by exact_mod_cast hiw
  have hihq : (0:ℚ) < (ih:ℚ) := by exact_mod_cast hih
  unfold image_content_size
  simp only [hw, hh, hp, hvp]
  rw [if_neg (by simp)]
  rw [if_neg (by push_neg; omega)]
  have h1 : (if truthyO (some wv) = true then (some wv).getD 0 - 0 * 2 else 1000000) = wv := by
    simp [truthyO]
    omega
  have h2 : (if truthyO (none : Option Int) = true then (none : Option Int).getD 0 - 0 * 2 else 1000000) = 1000000 := by
    simp [truthyO]
  rw [h1, h2]
  have hmin : ((wv:ℚ) / (iw:ℚ)) ⊓ (((1000000:ℤ):ℚ) / (ih:ℚ)) = (wv:ℚ)/(iw:ℚ) := by
    apply min_eq_left
    rw [div_le_div_iff₀ hiwq hihq]
    exact_mod_cast hcap
  rw [hmin]
  have hval : (iw:ℚ) * ((wv:ℚ)/(iw:ℚ)) = ((wv : ℤ):ℚ) := by
    field_simp
  rw [hval, truncQ_intCast]
  set v : ℚ := (ih:ℚ) * ((wv:ℚ)/(iw:ℚ)) with hvdef
  have hvnn : 0 ≤ v := by
    rw [hvdef]
    have : (0:ℚ) < (wv:ℚ)/(iw:ℚ) := div_pos (by exact_mod_cast hwpos) hiwq
    positivity
  have htr2 : truncQ v = ⌊v⌋ := by
    unfold truncQ
    rw [if_neg (not_lt.mpr hvnn)]
  refine ⟨truncQ v, rfl, ?_, ?_⟩
  · have hle : ((⌊v⌋ : ℤ):ℚ) ≤ v := Int.floor_le v
    have hmul : ((⌊v⌋ : ℤ):ℚ) * (iw:ℚ) ≤ v * (iw:ℚ) := by
      exact mul_le_mul_of_nonneg_right hle (le_of_lt hiwq)
    have hvm : v * (iw:ℚ) = ((ih * wv : ℤ):ℚ) := by
      rw [hvdef]
      field_simp
    rw [hvm] at hmul
    rw [htr2]
    exact_mod_cast hmul
  · have hlt : v < ((⌊v⌋ : ℤ):ℚ) + 1 := Int.lt_floor_add_one v
    have hmul : v * (iw:ℚ) < (((⌊v⌋ : ℤ):ℚ) + 1) * (iw:ℚ) := by
      exact mul_lt_mul_of_pos_right hlt hiwq
    have hvm : v * (iw:ℚ) = ((ih * wv : ℤ):ℚ) := by
      rw [hvdef]
      field_simp
    rw [hvm] at hmul
    rw [htr2]
    exact_mod_cast hmul

/-- Witness for the amended C8: a 37×50 image fit to width 100 yields content
width exactly 100 and a height within one pixel of `50 * 100 / 37`. -/
theorem claim_c8_imagebox_fit_witness :
    ∃ nh, image_content_size { w := some 100 }
        { img_w := 37, img_h := 50, image_size_mode := .fit } = .ok (100, nh) ∧
      nh * 37 ≤ 50 * 100 ∧ 50 * 100 < (nh + 1) * 37 :=
  claim_c8_imagebox_fit { w := some 100 } 37 50 100 rfl rfl rfl rfl
    (by norm_num) (by norm_num) (by norm_num) (by norm_num)


/-- A Python `[:i]` slice has at most `pyIdx` elements. -/
theorem pySliceTo_length_le {α : Type} (l : List α) (i : Int) :
    (pySliceTo l i).length ≤ pyIdx l.length i := by
  unfold pySliceTo
  simp [List.length_take]

/-- With only a column count set, `grid_derive_rc` keeps the column count and
derives the row count by ceiling division. -/
theorem grid_derive_rc_col (n cv : Int) (hcv : cv ≠ 0) :
    grid_derive_rc n 0 cv = ((n + cv - 1).fdiv cv, cv) := by
  unfold grid_derive_rc
  simp [hcv]

/-- A successful `grid_rc_size` returns exactly the derived row/column pair. -/
theorem grid_rc_size_rc (a : Attrs) (cfg : GridCfg) (ss : List (Int × Int))
    (r c gw gh : Int)
    (hok : grid_rc_size a cfg ss = .ok ((r, c), (gw, gh))) :
    (r, c) = grid_derive_rc (ss.length : Int) (cfg.row_count.getD 0) (cfg.col_count.getD 0) := by
  simp only [grid_rc_size] at hok
  split at hok
  · exact absurd hok (by simp)
  · split at hok
    · split at hok
      · exact absurd hok (by simp)
      · split at hok
        · exact absurd hok (by simp)
        · split at hok
          · exact absurd hok (by simp)
          · simp only [Except.ok.injEq, Prod.mk.injEq] at hok
            exact Prod.ext hok.1.1.symm hok.1.2.symm
    · simp only [Except.ok.injEq, Prod.mk.injEq] at hok
      exact Prod.ext hok.1.1.symm hok.1.2.symm

/-- C4: a `Grid` with only `col_count = c > 0` set derives its row count by
ceiling division `(n + c - 1) // c` of the item count `n` (characterised by
`n ≤ r*c < n + c`), and `_draw_content` places the item at running index
`idx` in cell `(idx // c, idx % c)` when `vertical` is false and
`(idx % r, idx // r)` when `vertical` is true. -/
theorem claim_c4_grid_layout (a : Attrs) (cfg : GridCfg) (ss : List (Int × Int))
    (cv r c gw gh : Int)
    (hc : cfg.col_count = some cv) (hrow : cfg.row_count = none) (hcpos : 0 < cv)
    (hok : grid_rc_size a cfg ss = .ok ((r, c), (gw, gh))) :
    c = cv ∧ r = ((ss.length : Int) + cv - 1).fdiv cv ∧
    (ss.length : Int) ≤ r * cv ∧ r * cv < (ss.length : Int) + cv ∧
    (∀ idx : Int, grid_cell false r c idx = (idx.fdiv c, idx.fmod c)) ∧
    (∀ idx : Int, grid_cell true r c idx = (idx.fmod r, idx.fdiv r)) := by
  have hcv : cv ≠ 0 := ne_of_gt hcpos
  have hrc := grid_rc_size_rc a cfg ss r c gw gh hok
  rw [hc, hrow] at hrc
  simp only [Option.getD_some, Option.getD_none] at hrc
  rw [grid_derive_rc_col _ _ hcv] at hrc
  have hr : r = ((ss.length : Int) + cv - 1).fdiv cv := congrArg Prod.fst hrc
  have hcc : c = cv := congrArg Prod.snd hrc
  have hceil : (ss.length : Int) ≤ r * cv ∧ r * cv < (ss.length : Int) + cv := by
    have hfd : ((ss.length : Int) + cv - 1).fdiv cv = ((ss.length : Int) + cv - 1) / cv :=
      Int.fdiv_eq_ediv _ (le_of_lt hcpos)
    have hdm := Int.ediv_add_emod ((ss.length : Int) + cv - 1) cv
    have hm0 : 0 ≤ ((ss.length : Int) + cv - 1) % cv := Int.emod_nonneg _ hcv
    have hm1 : ((ss.length : Int) + cv - 1) % cv < cv := Int.emod_lt_of_pos _ hcpos
    rw [hr, hfd]
    constructor
    · nlinarith [hdm, hm0, hm1]
    · nlinarith [hdm, hm0, hm1]
  exact ⟨hcc, hr, hceil.1, hceil.2, fun _ => rfl, fun _ => rfl⟩

/-- Witness for C4: `col_count = 3` with 7 items derives exactly 3 rows. -/
theorem claim_c4_grid_layout_witness :
    (3 : Int) = 3 ∧ (3 : Int) = ((7 : Int) + 3 - 1).fdiv 3 ∧
    (7 : Int) ≤ 3 * 3 ∧ (3 : Int) * 3 < 7 + 3 ∧
    (∀ idx : Int, grid_cell false 3 3 idx = (idx.fdiv 3, idx.fmod 3)) ∧
    (∀ idx : Int, grid_cell true 3 3 idx = (idx.fmod 3, idx.fdiv 3)) := by
  have h := claim_c4_grid_layout {}
    { row_count := none, col_count := some 3, item_size_mode := .fixed,
      hsep := 8, vsep := 8, item_halign := .c, item_valign := .c, vertical := false }
    [(1, 1), (1, 1), (1, 1), (1, 1), (1, 1), (1, 1), (1, 1)]
    3 3 3 1 1 rfl rfl (by norm_num) rfl
  simpa using h

/-- C10: a `TextBox` constructed with `line_count=None` gets effective line
count 1 when `use_real_line_count` is false and 99999 when it is true, and
`_get_lines` never produces more lines than that limit. -/
theorem claim_c10_default_line_count (text : List Char) (cw : Char → Nat)
    (fsize lsep : Int) (wrap : Bool) (ov : String) (use_real : Bool)
    (a : Attrs) (cfg : TextCfg)
    (hmk : TextBox.mk_checked text cw fsize none lsep wrap ov use_real = .ok (a, cfg)) :
    cfg.line_count = (if use_real then 99999 else 1) ∧
    (get_lines a cfg).length ≤ (if use_real then (99999 : Nat) else 1) := by
  unfold TextBox.mk_checked at hmk
  split at hmk
  · simp only [Except.ok.injEq, Prod.mk.injEq] at hmk
    obtain ⟨_, hcfg⟩ := hmk
    have hlc : cfg.line_count = (if use_real then (99999 : Int) else 1) := by
      rw [← hcfg]
    refine ⟨hlc, ?_⟩
    unfold get_lines
    refine le_trans (pySliceTo_length_le _ _) ?_
    rw [hlc]
    rcases use_real with _ | _ <;> norm_num [pyIdx]
  · exact absurd hmk (by simp)

/-- Witness for C10: a two-physical-line text in a default-line-count
`TextBox` (with `use_real_line_count = false`) yields at most one line. -/
theorem claim_c10_default_line_count_witness :
    (get_lines { vpadding := 2, hpadding := 2, vmargin := 0, hmargin := 0 }
      { text := ['a', '\n', 'b'], char_w := fun _ => 1, font_size := 16, line_count := 1,
        line_sep := 2, wrap := true, overflow := .shrink,
        use_real_line_count := false }).length ≤ 1 := by
  have h := claim_c10_default_line_count ['a', '\n', 'b'] (fun _ => 1) 16 2 true
    ("shrink") false
    { vpadding := 2, hpadding := 2, vmargin := 0, hmargin := 0 }
    { text := ['a', '\n', 'b'], char_w := fun _ => 1, font_size := 16, line_count := 1,
      line_sep := 2, wrap := true, overflow := .shrink, use_real_line_count := false }
    rfl
  simpa using h.2

/-- Rendered text width is nonnegative. -/
theorem textW_nonneg (cw : Char → Nat) (s : List Char) : 0 ≤ textW cw s := by
  unfold textW
  refine List.sum_nonneg ?_
  intro x hx
  obtain ⟨ch, _, hch⟩ := List.mem_map.mp hx
  rw [← hch]
  exact Int.natCast_nonneg _

/-- Rendered text width is additive over concatenation. -/
theorem textW_append (cw : Char → Nat) (s t : List Char) :
    textW cw (s ++ t) = textW cw s + textW cw t := by
  unfold textW
  rw [List.map_append, List.sum_append]

/-- Splitting off a prefix splits the rendered width. -/
theorem textW_slice_split (cw : Char → Nat) (s : List Char) (i : Int) :
    textW cw (pySliceTo s i) + textW cw (pySliceFrom s i) = textW cw s := by
  unfold pySliceTo pySliceFrom
  rw [← textW_append, List.take_append_drop]

/-- A newline-free string splits to the single piece `[s]`. -/
theorem splitNl_no_newline (s : List Char) (h : ∀ ch ∈ s, ch ≠ '\n') :
    splitNl s = [s] := by
  induction s with
  | nil => rfl
  | cons ch rest ih =>
    have hch : ch ≠ '\n' := h ch (List.mem_cons_self ch rest)
    have hrest : splitNl rest = [rest] := ih (fun c hc => h c (List.mem_cons_of_mem ch hc))
    unfold splitNl
    rw [if_neg hch, hrest]

/-- The empty Python prefix slice. -/
theorem pySliceTo_zero {α : Type} (s : List α) : pySliceTo s 0 = [] := rfl

/-- A full-length Python prefix slice. -/
theorem pySliceTo_length {α : Type} (s : List α) : pySliceTo s (s.length : Int) = s := by
  unfold pySliceTo pyIdx
  rw [if_pos (Int.natCast_nonneg _)]
  simp

/-- Invariant-based specification of the `_get_clip_text_to_width_idx` binary
search: started with `l = 0`, `r = n`, adequate fuel, and an empty prefix
(plus suffix) that fits, the loop returns an index in `[0, r]` whose sliced
prefix (plus suffix) still fits in `width`. -/
theorem clip_search_spec (cw : Char → Nat) (text sfx : List Char) (width : Int) :
    ∀ (fuel : Nat) (l r : Int),
      0 ≤ l → l ≤ r + 1 →
      (l = 0 ∨ textW cw (pySliceTo text (l - 1) ++ sfx) ≤ width) →
      (l = 0 → 0 ≤ r) → (r + 1 - l).toNat ≤ fuel →
      textW cw (pySliceTo text 0 ++ sfx) ≤ width →
      0 ≤ clip_search cw text sfx width fuel l r ∧
      clip_search cw text sfx width fuel l r ≤ r ∧
      textW cw (pySliceTo text (clip_search cw text sfx width fuel l r) ++ sfx) ≤ width := by
  intro fuel
  induction fuel with
  | zero =>
    intro l r h0l hlr hinv hl0 hfuel h0
    have hl : l = r + 1 := by omega
    have hlpos : l ≠ 0 := by
      intro hz
      have := hl0 hz
      omega
    have hwr : textW cw (pySliceTo text (l - 1) ++ sfx) ≤ width := by
      rcases hinv with h | h
      · exact absurd h hlpos
      · exact h
    simp only [clip_search]
    refine ⟨by omega, le_refl r, ?_⟩
    have : r = l - 1 := by omega
    rw [this]
    exact hwr
  | succ fuel ih =>
    intro l r h0l hlr hinv hl0 hfuel h0
    by_cases hle : l ≤ r
    · have hm := Int.fdiv_eq_ediv (l + r) (by norm_num : (0 : ℤ) ≤ 2)
      have hm1 : l ≤ (l + r).fdiv 2 := by
        rw [hm]
        refine (Int.le_ediv_iff_mul_le (by norm_num)).mpr ?_
        omega
      have hm2 : (l + r).fdiv 2 ≤ r := by
        rw [hm]
        calc (l + r) / 2 ≤ (r * 2) / 2 := Int.ediv_le_ediv (by norm_num) (by omega)
        _ = r := Int.mul_ediv_cancel r (by norm_num)
      simp only [clip_search]
      rw [if_pos hle]
      by_cases h1 : textW cw (pySliceTo text ((l + r).fdiv 2) ++ sfx) < width
      · rw [if_pos h1]
        refine ih ((l + r).fdiv 2 + 1) r (by omega) (by omega)
          (Or.inr ?_) (by omega) (by omega) h0
        have : (l + r).fdiv 2 + 1 - 1 = (l + r).fdiv 2 := by omega
        rw [this]
        exact le_of_lt h1
      · rw [if_neg h1]
        by_cases h2 : width < textW cw (pySliceTo text ((l + r).fdiv 2) ++ sfx)
        · rw [if_pos h2]
          have hres := ih l ((l + r).fdiv 2 - 1) h0l (by omega) hinv
            (by intro hz
                subst hz
                by_contra hneg
                have hmz : (0 + r).fdiv 2 = 0 := by omega
                rw [hmz] at h2
                omega)
            (by omega) h0
          exact ⟨hres.1, by omega, hres.2.2⟩
        · rw [if_neg h2]
          exact ⟨by omega, hm2, by omega⟩
    · simp only [clip_search]
      rw [if_neg hle]
      have hl : l = r + 1 := by omega
      have hlpos : l ≠ 0 := by
        intro hz
        have := hl0 hz
        omega
      have hwr : textW cw (pySliceTo text (l - 1) ++ sfx) ≤ width := by
        rcases hinv with h | h
        · exact absurd h hlpos
        · exact h
      refine ⟨by omega, le_refl r, ?_⟩
      have : r = l - 1 := by omega
      rw [this]
      exact hwr

/-- Specification of `_get_clip_text_to_width_idx`: when the suffix alone
fits but the whole text plus suffix does not, the function returns `some`
index strictly inside the text whose sliced prefix plus suffix fits. -/
theorem clip_text_to_width_idx_spec (cw : Char → Nat) (text sfx : List Char) (width : Int)
    (hfit0 : textW cw sfx ≤ width)
    (hover : width < textW cw (text ++ sfx)) :
    ∃ idx, clip_text_to_width_idx cw text sfx width = some idx ∧
      0 ≤ idx ∧ idx < (text.length : Int) ∧
      textW cw (pySliceTo text idx ++ sfx) ≤ width := by
  have h0 : textW cw (pySliceTo text 0 ++ sfx) ≤ width := by
    rw [pySliceTo_zero]
    simpa using hfit0
  have hs := clip_search_spec cw text sfx width (text.length + 1) 0 (text.length : Int)
    le_rfl (by omega) (Or.inl rfl) (fun _ => Int.natCast_nonneg _) (by omega) h0
  refine ⟨clip_search cw text sfx width (text.length + 1) 0 (text.length : Int), ?_, hs.1, ?_, hs.2.2⟩
  · unfold clip_text_to_width_idx
    rw [if_neg (not_le.mpr hover)]
  · rcases lt_or_eq_of_le hs.2.1 with h | h
    · exact h
    · exfalso
      rw [h, pySliceTo_length] at hs
      omega

/-- C3: a `TextBox` with a truthy explicit width, `wrap=true`,
`line_count=2`, `overflow='shrink'` and newline-free text wider than two
lines' worth of the available width (with the ellipsis itself fitting)
produces exactly 2 lines via the binary search, each line fitting the
available width `w - 2*hpadding`, the second ending in the `'...'` suffix. -/
theorem claim_c3_textbox_two_lines (a : Attrs) (cfg : TextCfg) (wv : Int)
    (hw : a.w = some wv) (hwnz : wv ≠ 0)
    (hwrap : cfg.wrap = true) (hov : cfg.overflow = .shrink) (hlc : cfg.line_count = 2)
    (hnl : ∀ ch ∈ cfg.text, ch ≠ '\n')
    (hell : textW cfg.char_w ['.', '.', '.'] ≤ wv - a.hpadding * 2)
    (hbig : 2 * (wv - a.hpadding * 2) < textW cfg.char_w cfg.text) :
    ∃ l1 l2, get_lines a cfg = [l1, l2] ∧
      textW cfg.char_w l1 ≤ wv - a.hpadding * 2 ∧
      textW cfg.char_w l2 ≤ wv - a.hpadding * 2 ∧
      ∃ pre, l2 = pre ++ ['.', '.', '.'] := by
  have hav0 : 0 ≤ wv - a.hpadding * 2 := le_trans (textW_nonneg cfg.char_w _) hell
  have hover1 : wv - a.hpadding * 2 < textW cfg.char_w (cfg.text ++ []) := by
    rw [List.append_nil]
    omega
  obtain ⟨i1, hc1, hi1a, hi1b, hi1w⟩ :=
    clip_text_to_width_idx_spec cfg.char_w cfg.text [] (wv - a.hpadding * 2)
      (by simp only [textW, List.map_nil, List.sum_nil]; exact hav0) hover1
  have hl1w : textW cfg.char_w (pySliceTo cfg.text i1) ≤ wv - a.hpadding * 2 := by
    simpa using hi1w
  have hremw : wv - a.hpadding * 2 < textW cfg.char_w (pySliceFrom cfg.text i1) := by
    have hsplit := textW_slice_split cfg.char_w cfg.text i1
    omega
  have hover2 : wv - a.hpadding * 2 <
      textW cfg.char_w (pySliceFrom cfg.text i1 ++ ['.', '.', '.']) := by
    rw [textW_append]
    have := textW_nonneg cfg.char_w ['.', '.', '.']
    omega
  obtain ⟨i2, hc2, hi2a, hi2b, hi2w⟩ :=
    clip_text_to_width_idx_spec cfg.char_w (pySliceFrom cfg.text i1) ['.', '.', '.']
      (wv - a.hpadding * 2) hell hover2
  have htr : truthyO a.w = true := by
    simp [truthyO, hw, hwnz]
  have hone : splitNl cfg.text = [cfg.text] := splitNl_no_newline _ hnl
  have hrun : wrap_line_loop cfg.char_w (wv - a.hpadding * 2) ['.', '.', '.'] 2
      ((2 : Int).toNat + cfg.text.length + 1) [] cfg.text =
      [pySliceTo cfg.text i1, pySliceTo (pySliceFrom cfg.text i1) i2 ++ ['.', '.', '.']] := by
    simp only [wrap_line_loop]
    norm_num
    rw [hc1]
    simp only [List.append_nil, List.nil_append, List.length_singleton]
    have hF : Int.toNat 2 + cfg.text.length = 1 + cfg.text.length + 1 := by omega
    rw [hF]
    simp only [wrap_line_loop]
    norm_num
    rw [hc2]
  unfold get_lines
  rw [hone]
  have htr2 : truthyO (some wv) = true := by simp [truthyO, hwnz]
  simp only [List.foldl_cons, List.foldl_nil, hw, Option.getD_some, htr2, hwrap, hov,
    suffix_of, hlc, eq_self_iff_true, if_true]
  rw [hrun]
  refine ⟨pySliceTo cfg.text i1, pySliceTo (pySliceFrom cfg.text i1) i2 ++ ['.', '.', '.'],
    ?_, hl1w, hi2w, ⟨pySliceTo (pySliceFrom cfg.text i1) i2, rfl⟩⟩
  simp [pySliceTo, pyIdx]

/-- Witness for C3: 30 unit-width characters in a width-10 box with zero
padding wrap to exactly two fitting lines, the second ellipsis-terminated. -/
theorem claim_c3_textbox_two_lines_witness :
    ∃ l1 l2,
      get_lines { w := some 10 }
        { text := List.replicate 30 'a', char_w := fun _ => 1, font_size := 16,
          line_count := 2, line_sep := 2, wrap := true, overflow := .shrink,
          use_real_line_count := false } = [l1, l2] ∧
      textW (fun _ => 1) l1 ≤ 10 - 0 * 2 ∧
      textW (fun _ => 1) l2 ≤ 10 - 0 * 2 ∧
      ∃ pre, l2 = pre ++ ['.', '.', '.'] :=
  claim_c3_textbox_two_lines { w := some 10 }
    { text := List.replicate 30 'a', char_w := fun _ => 1, font_size := 16,
      line_count := 2, line_sep := 2, wrap := true, overflow := .shrink,
      use_real_line_count := false } 10
    rfl (by decide) rfl rfl rfl (by decide) (by decide) (by decide)

/-- Throw on `Except` is `error`. -/
theorem except_throw {ε α : Type} (e : ε) : (throw e : Except ε α) = .error e := rfl

/-- Bind of an `ok` on `Except` applies the continuation. -/
theorem except_bind_ok_left {ε α β : Type} (a : α) (f : α → Except ε β) :
    ((Except.ok a : Except ε α) >>= f) = f a := rfl

/-- A `move_region` immediately undone by one `restore_region` only bumps the
push/pop counters. -/
theorem move_restore_one (p : Painter) (d : Int × Int) (sz : Option (Int × Int)) :
    (p.move_region d sz).restore_region 1 =
      { p with pushes := p.pushes + 1, pops := p.pops + 1 } := by
  obtain ⟨im, ⟨ox, oy⟩, ⟨sx, sy⟩, st, pu, po⟩ := p
  rfl

/-- Inversion of `Widget.self_size`: it is the base formula applied to the
widget's content size. -/
theorem self_size_inv (w : Widget) (s : Int × Int) (hs : w.self_size = .ok s) :
    ∃ cs, w.content_size = .ok cs ∧ self_size_of w.attrs cs = .ok s := by
  unfold Widget.self_size at hs
  exact except_bind_ok.mp hs

/-- The prelude of `draw` succeeds exactly on a painter of the widget's self
size, and its four pushes leave the original region as the fourth stack
entry. -/
theorem draw_prelude_spec (w : Widget) (p p4 : Painter)
    (h : draw_prelude w p = .ok p4) :
    w.self_size = .ok p.size ∧ p4.img_size = p.img_size ∧
    p4.pushes = p.pushes + 4 ∧ p4.pops = p.pops ∧
    ∃ e2 e3 e4, p4.stack = e4 :: e3 :: e2 :: (p.offset, p.size) :: p.stack := by
  unfold draw_prelude at h
  obtain ⟨s, hs, h2⟩ := except_bind_ok.mp h
  rw [apply_ite (fun x => x = Except.ok p4)] at h2
  by_cases hne : p.size ≠ s
  case pos =>
    rw [if_pos hne, except_throw] at h2
    exact absurd h2 (by simp)
  case neg =>
  rw [if_neg hne] at h2
  have hps : p.size = s := not_not.mp hne
  obtain ⟨cpos, hc, h4⟩ := except_bind_ok.mp h2
  have hp4 : (((p.move_region (anchored_offset w.attrs p) none).shrink_region
      (w.attrs.hmargin, w.attrs.vmargin)).shrink_region
      (w.attrs.hpadding, w.attrs.vpadding)).move_region cpos none = p4 := by
    simpa [pure, Except.pure] using h4
  subst hp4
  refine ⟨by rw [hps]; exact hs, ?_, ?_, ?_, ?_⟩
  · simp [Painter.move_region, Painter.shrink_region, Painter.set_region]
  · simp [Painter.move_region, Painter.shrink_region, Painter.set_region]
  · simp [Painter.move_region, Painter.shrink_region, Painter.set_region]
  · exact ⟨_, _, _, rfl⟩

/-- The per-line pushes of `TextBox._draw_content` are region-neutral. -/
theorem draw_text_lines_pres (cw : Char → Nat) (fs ls : Int) (ha : HA) :
    ∀ (lines : List (List Char)) (y : Int) (p : Painter),
      pres p (draw_text_lines cw fs ls ha lines y p) := by
  intro lines
  induction lines with
  | nil =>
    intro y p
    exact pres_refl p
  | cons line rest ih =>
    intro y p
    simp only [draw_text_lines]
    rw [move_restore_one]
    refine pres_trans ?_ (ih _ _)
    exact ⟨rfl, rfl, rfl, rfl, 1, rfl, rfl⟩

/-- `TextBox._draw_content` is region-neutral. -/
theorem textbox_draw_content_pres (a : Attrs) (cfg : TextCfg) (p : Painter) :
    pres p (textbox_draw_content a cfg p) := by
  unfold textbox_draw_content
  exact draw_text_lines_pres _ _ _ _ _ _ _

/-- Epilogue of `Widget.draw`: after a region-preserving content phase on the
prelude's output, `restore_region 4` restores the caller's region exactly and
balances the four prelude pushes. -/
theorem draw_epilogue (p p4 p5 : Painter) (e2 e3 e4 : (Int × Int) × (Int × Int))
    (himg : p4.img_size = p.img_size) (hpu : p4.pushes = p.pushes + 4)
    (hpo : p4.pops = p.pops)
    (hst : p4.stack = e4 :: e3 :: e2 :: (p.offset, p.size) :: p.stack)
    (hc : pres p4 p5) :
    (p5.restore_region 4).img_size = p.img_size ∧
    (p5.restore_region 4).offset = p.offset ∧
    (p5.restore_region 4).size = p.size ∧
    (p5.restore_region 4).stack = p.stack ∧
    ∃ k5, (p5.restore_region 4).pushes = p.pushes + (k5 + 4) ∧
          (p5.restore_region 4).pops = p.pops + (k5 + 4) ∧
          p5.pushes = p4.pushes + k5 := by
  obtain ⟨i5, o5, s5, st5, k5, pu5, po5⟩ := hc
  have hst5 : p5.stack = e4 :: e3 :: e2 :: (p.offset, p.size) :: p.stack := st5.trans hst
  have hres := restore_region_four p5 e2 e3 e4 p.offset p.size p.stack hst5
  rw [hres]
  refine ⟨i5.trans himg, rfl, rfl, rfl, k5, ?_, ?_, pu5⟩
  · show p5.pushes = p.pushes + (k5 + 4)
    omega
  · show p5.pops + 4 = p.pops + (k5 + 4)
    omega

mutual
/-- Region-stack discipline of `Widget.draw`: whenever it returns, the
painter's image size, active region and stack are exactly restored, the
pushes and pops performed during the call balance, at least the four pushes
of the base method occurred, and exactly four when the widget's
`_draw_content` is region-neutral. -/
theorem Widget.draw_pres : ∀ (w : Widget) (p q : Painter), w.draw p = .ok q →
    q.img_size = p.img_size ∧ q.offset = p.offset ∧ q.size = p.size ∧ q.stack = p.stack ∧
    ∃ k, q.pushes = p.pushes + k ∧ q.pops = p.pops + k ∧ 4 ≤ k ∧
      (w.content_region_neutral → k = 4)
  | .frame a items, p, q => by
    intro h
    simp only [Widget.draw] at h
    obtain ⟨p4, hpre, h2⟩ := except_bind_ok.mp h
    obtain ⟨cs, _, h3⟩ := except_bind_ok.mp h2
    obtain ⟨p5, hdc, h4⟩ := except_bind_ok.mp h3
    have hq : p5.restore_region 4 = q := by simpa [pure, Except.pure] using h4
    subst hq
    obtain ⟨_, himg, hpu, hpo, e2, e3, e4, hstk⟩ := draw_prelude_spec _ p p4 hpre
    have hc := WidgetList.draw_in_frame_pres items a cs p4 p5 hdc
    obtain ⟨qi, qo, qs, qst, k5, qpu, qpo, _⟩ :=
      draw_epilogue p p4 p5 e2 e3 e4 himg hpu hpo hstk hc
    exact ⟨qi, qo, qs, qst, k5 + 4, qpu, qpo, by omega, fun hn => hn.elim⟩
  | .hsplit a cfg items, p, q => by
    intro h
    simp only [Widget.draw] at h
    obtain ⟨p4, hpre, h2⟩ := except_bind_ok.mp h
    obtain ⟨_, himg, hpu, hpo, e2, e3, e4, hstk⟩ := draw_prelude_spec _ p p4 hpre
    split at h2
    · have hq : p4.restore_region 4 = q := by simpa [pure, Except.pure] using h2
      subst hq
      obtain ⟨qi, qo, qs, qst, k5, qpu, qpo, _⟩ :=
        draw_epilogue p p4 p4 e2 e3 e4 himg hpu hpo hstk (pres_refl p4)
      exact ⟨qi, qo, qs, qst, k5 + 4, qpu, qpo, by omega, fun hn => hn.elim⟩
    · obtain ⟨ss, _, h3⟩ := except_bind_ok.mp h2
      obtain ⟨sizes, _, h4⟩ := except_bind_ok.mp h3
      obtain ⟨p5, hdc, h5⟩ := except_bind_ok.mp h4
      have hq : p5.restore_region 4 = q := by simpa [pure, Except.pure] using h5
      subst hq
      have hc := WidgetList.draw_in_hsplit_pres items sizes cfg 0 p4 p5 hdc
      obtain ⟨qi, qo, qs, qst, k5, qpu, qpo, _⟩ :=
        draw_epilogue p p4 p5 e2 e3 e4 himg hpu hpo hstk hc
      exact ⟨qi, qo, qs, qst, k5 + 4, qpu, qpo, by omega, fun hn => hn.elim⟩
  | .vsplit a cfg items, p, q => by
    intro h
    simp only [Widget.draw] at h
    obtain ⟨p4, hpre, h2⟩ := except_bind_ok.mp h
    obtain ⟨_, himg, hpu, hpo, e2, e3, e4, hstk⟩ := draw_prelude_spec _ p p4 hpre
    split at h2
    · have hq : p4.restore_region 4 = q := by simpa [pure, Except.pure] using h2
      subst hq
      obtain ⟨qi, qo, qs, qst, k5, qpu, qpo, _⟩ :=
        draw_epilogue p p4 p4 e2 e3 e4 himg hpu hpo hstk (pres_refl p4)
      exact ⟨qi, qo, qs, qst, k5 + 4, qpu, qpo, by omega, fun hn => hn.elim⟩
    · obtain ⟨ss, _, h3⟩ := except_bind_ok.mp h2
      obtain ⟨sizes, _, h4⟩ := except_bind_ok.mp h3
      obtain ⟨p5, hdc, h5⟩ := except_bind_ok.mp h4
      have hq : p5.restore_region 4 = q := by simpa [pure, Except.pure] using h5
      subst hq
      have hc := WidgetList.draw_in_vsplit_pres items sizes cfg 0 p4 p5 hdc
      obtain ⟨qi, qo, qs, qst, k5, qpu, qpo, _⟩ :=
        draw_epilogue p p4 p5 e2 e3 e4 himg hpu hpo hstk hc
      exact ⟨qi, qo, qs, qst, k5 + 4, qpu, qpo, by omega, fun hn => hn.elim⟩
  | .grid a cfg items, p, q => by
    intro h
    simp only [Widget.draw] at h
    obtain ⟨p4, hpre, h2⟩ := except_bind_ok.mp h
    obtain ⟨_, himg, hpu, hpo, e2, e3, e4, hstk⟩ := draw_prelude_spec _ p p4 hpre
    obtain ⟨ss, _, h3⟩ := except_bind_ok.mp h2
    obtain ⟨rc, _, h4⟩ := except_bind_ok.mp h3
    obtain ⟨p5, hdc, h5⟩ := except_bind_ok.mp h4
    have hq : p5.restore_region 4 = q := by simpa [pure, Except.pure] using h5
    subst hq
    have hc := WidgetList.draw_in_grid_pres items cfg rc 0 p4 p5 hdc
    obtain ⟨qi, qo, qs, qst, k5, qpu, qpo, _⟩ :=
      draw_epilogue p p4 p5 e2 e3 e4 himg hpu hpo hstk hc
    exact ⟨qi, qo, qs, qst, k5 + 4, qpu, qpo, by omega, fun hn => hn.elim⟩
  | .textbox a cfg, p, q => by
    intro h
    simp only [Widget.draw] at h
    obtain ⟨p4, hpre, h2⟩ := except_bind_ok.mp h
    obtain ⟨_, himg, hpu, hpo, e2, e3, e4, hstk⟩ := draw_prelude_spec _ p p4 hpre
    have hq : (textbox_draw_content a cfg p4).restore_region 4 = q := by
      simpa [pure, Except.pure] using h2
    subst hq
    have hc := textbox_draw_content_pres a cfg p4
    obtain ⟨qi, qo, qs, qst, k5, qpu, qpo, _⟩ :=
      draw_epilogue p p4 _ e2 e3 e4 himg hpu hpo hstk hc
    exact ⟨qi, qo, qs, qst, k5 + 4, qpu, qpo, by omega, fun hn => hn.elim⟩
  | .imagebox a cfg, p, q => by
    intro h
    simp only [Widget.draw] at h
    obtain ⟨p4, hpre, h2⟩ := except_bind_ok.mp h
    obtain ⟨_, himg, hpu, hpo, e2, e3, e4, hstk⟩ := draw_prelude_spec _ p p4 hpre
    obtain ⟨_, _, h3⟩ := except_bind_ok.mp h2
    have hq : p4.restore_region 4 = q := by simpa [pure, Except.pure] using h3
    subst hq
    obtain ⟨qi, qo, qs, qst, k5, qpu, qpo, hk5⟩ :=
      draw_epilogue p p4 p4 e2 e3 e4 himg hpu hpo hstk (pres_refl p4)
    exact ⟨qi, qo, qs, qst, k5 + 4, qpu, qpo, by omega, fun _ => by omega⟩
  | .spacer a, p, q => by
    intro h
    simp only [Widget.draw] at h
    obtain ⟨p4, hpre, h2⟩ := except_bind_ok.mp h
    obtain ⟨_, himg, hpu, hpo, e2, e3, e4, hstk⟩ := draw_prelude_spec _ p p4 hpre
    have hq : p4.restore_region 4 = q := by simpa [pure, Except.pure] using h2
    subst hq
    obtain ⟨qi, qo, qs, qst, k5, qpu, qpo, hk5⟩ :=
      draw_epilogue p p4 p4 e2 e3 e4 himg hpu hpo hstk (pres_refl p4)
    exact ⟨qi, qo, qs, qst, k5 + 4, qpu, qpo, by omega, fun _ => by omega⟩
/-- Region-stack discipline of `Frame._draw_content`'s child loop. -/
theorem WidgetList.draw_in_frame_pres : ∀ (ws : WidgetList) (a : Attrs) (cs : Int × Int)
    (p q : Painter), WidgetList.draw_in_frame ws a cs p = .ok q → pres p q
  | .nil, a, cs, p, q => by
    intro h
    have hq : p = q := by simpa [WidgetList.draw_in_frame, pure, Except.pure] using h
    subst hq
    exact pres_refl p
  | .cons w ws, a, cs, p, q => by
    intro h
    simp only [WidgetList.draw_in_frame] at h
    obtain ⟨si, hsz, h2⟩ := except_bind_ok.mp h
    obtain ⟨iw, ih⟩ := si
    obtain ⟨p2, hdw, h3⟩ := except_bind_ok.mp h2
    obtain ⟨i2, o2, s2, st2, k2, pu2, po2, _, _⟩ := Widget.draw_pres w _ p2 hdw
    have hst2 : p2.stack = (p.offset, p.size) :: p.stack := st2.trans rfl
    rw [restore_region_one p2 p.offset p.size p.stack hst2] at h3
    have hrest := WidgetList.draw_in_frame_pres ws a cs _ q h3
    refine pres_trans ?_ hrest
    refine ⟨i2.trans rfl, rfl, rfl, rfl, k2 + 1, ?_, ?_⟩
    · show p2.pushes = p.pushes + (k2 + 1)
      have : p2.pushes = p.pushes + 1 + k2 := pu2
      omega
    · show p2.pops + 1 = p.pops + (k2 + 1)
      have : p2.pops = p.pops + k2 := po2
      omega
/-- Region-stack discipline of `HSplit._draw_content`'s child loop. -/
theorem WidgetList.draw_in_hsplit_pres : ∀ (ws : WidgetList) (szs : List (Int × Int))
    (cfg : SplitCfg) (x : Int) (p q : Painter),
    WidgetList.draw_in_hsplit ws szs cfg x p = .ok q → pres p q
  | .nil, szs, cfg, x, p, q => by
    intro h
    have hq : p = q := by simpa [WidgetList.draw_in_hsplit, pure, Except.pure] using h
    subst hq
    exact pres_refl p
  | .cons _ _, [], cfg, x, p, q => by
    intro h
    have hq : p = q := by simpa [WidgetList.draw_in_hsplit, pure, Except.pure] using h
    subst hq
    exact pres_refl p
  | .cons w ws, sz :: szs, cfg, x, p, q => by
    intro h
    simp only [WidgetList.draw_in_hsplit] at h
    obtain ⟨si, hsz, h2⟩ := except_bind_ok.mp h
    obtain ⟨iw, ih⟩ := si
    obtain ⟨p3, hdw, h3⟩ := except_bind_ok.mp h2
    obtain ⟨i3, o3, s3, st3, k3, pu3, po3, _, _⟩ := Widget.draw_pres w _ p3 hdw
    have hst3 : p3.stack =
        ((p.move_region (x, 0) (some sz)).offset, (p.move_region (x, 0) (some sz)).size)
          :: (p.offset, p.size) :: p.stack := st3.trans rfl
    rw [restore_region_two p3 _ p.offset p.size p.stack hst3] at h3
    have hrest := WidgetList.draw_in_hsplit_pres ws szs cfg _ _ q h3
    refine pres_trans ?_ hrest
    refine ⟨i3.trans rfl, rfl, rfl, rfl, k3 + 2, ?_, ?_⟩
    · show p3.pushes = p.pushes + (k3 + 2)
      have : p3.pushes = p.pushes + 1 + 1 + k3 := pu3
      omega
    · show p3.pops + 2 = p.pops + (k3 + 2)
      have : p3.pops = p.pops + k3 := po3
      omega
/-- Region-stack discipline of `VSplit._draw_content`'s child loop. -/
theorem WidgetList.draw_in_vsplit_pres : ∀ (ws : WidgetList) (szs : List (Int × Int))
    (cfg : SplitCfg) (y : Int) (p q : Painter),
    WidgetList.draw_in_vsplit ws szs cfg y p = .ok q → pres p q
  | .nil, szs, cfg, y, p, q => by
    intro h
    have hq : p = q := by simpa [WidgetList.draw_in_vsplit, pure, Except.pure] using h
    subst hq
    exact pres_refl p
  | .cons _ _, [], cfg, y, p, q => by
    intro h
    have hq : p = q := by simpa [WidgetList.draw_in_vsplit, pure, Except.pure] using h
    subst hq
    exact pres_refl p
  | .cons w ws, sz :: szs, cfg, y, p, q => by
    intro h
    simp only [WidgetList.draw_in_vsplit] at h
    obtain ⟨si, hsz, h2⟩ := except_bind_ok.mp h
    obtain ⟨iw, ih⟩ := si
    obtain ⟨p3, hdw, h3⟩ := except_bind_ok.mp h2
    obtain ⟨i3, o3, s3, st3, k3, pu3, po3, _, _⟩ := Widget.draw_pres w _ p3 hdw
    have hst3 : p3.stack =
        ((p.move_region (0, y) (some sz)).offset, (p.move_region (0, y) (some sz)).size)
          :: (p.offset, p.size) :: p.stack := st3.trans rfl
    rw [restore_region_two p3 _ p.offset p.size p.stack hst3] at h3
    have hrest := WidgetList.draw_in_vsplit_pres ws szs cfg _ _ q h3
    refine pres_trans ?_ hrest
    refine ⟨i3.trans rfl, rfl, rfl, rfl, k3 + 2, ?_, ?_⟩
    · show p3.pushes = p.pushes + (k3 + 2)
      have : p3.pushes = p.pushes + 1 + 1 + k3 := pu3
      omega
    · show p3.pops + 2 = p.pops + (k3 + 2)
      have : p3.pops = p.pops + k3 := po3
      omega
/-- Region-stack discipline of `Grid._draw_content`'s child loop. -/
theorem WidgetList.draw_in_grid_pres : ∀ (ws : WidgetList) (cfg : GridCfg)
    (rc : (Int × Int) × (Int × Int)) (idx : Int) (p q : Painter),
    WidgetList.draw_in_grid ws cfg rc idx p = .ok q → pres p q
  | .nil, cfg, rc, idx, p, q => by
    intro h
    have hq : p = q := by simpa [WidgetList.draw_in_grid, pure, Except.pure] using h
    subst hq
    exact pres_refl p
  | .cons w ws, cfg, ((r, c), (gw, gh)), idx, p, q => by
    intro h
    simp only [WidgetList.draw_in_grid] at h
    by_cases hz : (if cfg.vertical then r else c) = 0
    · rw [if_pos hz, except_throw] at h
      exact absurd h (by simp)
    · rw [if_neg hz] at h
      obtain ⟨si, hsz, h2⟩ := except_bind_ok.mp h
      obtain ⟨iw, ih⟩ := si
      obtain ⟨p3, hdw, h3⟩ := except_bind_ok.mp h2
      obtain ⟨i3, o3, s3, st3, k3, pu3, po3, _, _⟩ := Widget.draw_pres w _ p3 hdw
      have hst3 : p3.stack =
          ((p.move_region ((grid_cell cfg.vertical r c idx).2 * (gw + cfg.hsep),
              (grid_cell cfg.vertical r c idx).1 * (gh + cfg.vsep)) (some (gw, gh))).offset,
           (p.move_region ((grid_cell cfg.vertical r c idx).2 * (gw + cfg.hsep),
              (grid_cell cfg.vertical r c idx).1 * (gh + cfg.vsep)) (some (gw, gh))).size)
            :: (p.offset, p.size) :: p.stack := st3.trans rfl
      rw [restore_region_two p3 _ p.offset p.size p.stack hst3] at h3
      have hrest := WidgetList.draw_in_grid_pres ws cfg ((r, c), (gw, gh)) _ _ q h3
      refine pres_trans ?_ hrest
      refine ⟨i3.trans rfl, rfl, rfl, rfl, k3 + 2, ?_, ?_⟩
      · show p3.pushes = p.pushes + (k3 + 2)
        have : p3.pushes = p.pushes + 1 + 1 + k3 := pu3
        omega
      · show p3.pops + 2 = p.pops + (k3 + 2)
        have : p3.pops = p.pops + k3 := po3
        omega
end

/-- `Widget.draw` only returns when the painter's region size equalled the
widget's self size (the assert at the top of `draw`). -/
theorem draw_assert (w : Widget) (p q : Painter) (h : w.draw p = .ok q) :
    w.self_size = .ok p.size := by
  cases w <;>
    (simp only [Widget.draw] at h
     obtain ⟨p4, hpre, _⟩ := except_bind_ok.mp h
     exact (draw_prelude_spec _ p p4 hpre).1)

/-- C2: for every widget, `draw(painter)` asserts that the painter's region
size equals the widget's self size; during the call every push is matched by
a pop — at least the four base-method pushes (anchor-move, margin-shrink,
padding-shrink, content-position move, matched by `restore_region(4)`), and
exactly four when `_draw_content` is region-neutral — so that after `draw`
returns the painter's offset, size and region stack equal their values from
immediately before the call. -/
theorem claim_c2_draw_region_discipline (w : Widget) (p q : Painter)
    (h : w.draw p = .ok q) :
    w.self_size = .ok p.size ∧
    q.offset = p.offset ∧ q.size = p.size ∧ q.stack = p.stack ∧
    ∃ k, q.pushes = p.pushes + k ∧ q.pops = p.pops + k ∧ 4 ≤ k ∧
      (w.content_region_neutral → k = 4) := by
  obtain ⟨_, ho, hs, hst, hk⟩ := Widget.draw_pres w p q h
  exact ⟨draw_assert w p q h, ho, hs, hst, hk⟩

/-- Witness for C2: drawing a 5×5 `Spacer` into a matching painter succeeds,
performs exactly 4 pushes and 4 pops, and restores the painter state. -/
theorem claim_c2_draw_region_discipline_witness :
    Widget.draw (.spacer { w := some 5, h := some 5 })
      ⟨(5, 5), (0, 0), (5, 5), [], 0, 0⟩ = .ok ⟨(5, 5), (0, 0), (5, 5), [], 4, 4⟩ ∧
    Widget.self_size (.spacer { w := some 5, h := some 5 }) = .ok (5, 5) :=
  ⟨rfl, (claim_c2_draw_region_discipline (.spacer { w := some 5, h := some 5 })
    ⟨(5, 5), (0, 0), (5, 5), [], 0, 0⟩ ⟨(5, 5), (0, 0), (5, 5), [], 4, 4⟩ rfl).1⟩

/-- Ceiling division of a positive count by a positive divisor is positive. -/
theorem fdiv_ceil_pos (n d : Int) (hd : 0 < d) (hn : 1 ≤ n) : 1 ≤ (n + d - 1).fdiv d := by
  rw [Int.fdiv_eq_ediv _ (le_of_lt hd)]
  refine (Int.le_ediv_iff_mul_le hd).mpr ?_
  omega

/-- A successful `grid_rc_size` implies the eager one-of-row/column assert
held. -/
theorem grid_rc_size_assert (a : Attrs) (cfg : GridCfg) (ss : List (Int × Int))
    (x : (Int × Int) × (Int × Int)) (hok : grid_rc_size a cfg ss = .ok x) :
    (cfg.row_count.getD 0 ≠ 0 ∧ cfg.col_count.getD 0 = 0) ∨
    (cfg.col_count.getD 0 ≠ 0 ∧ cfg.row_count.getD 0 = 0) := by
  simp only [grid_rc_size] at hok
  by_cases hA : ¬ ((cfg.row_count.getD 0 ≠ 0 ∧ cfg.col_count.getD 0 = 0) ∨
      (cfg.col_count.getD 0 ≠ 0 ∧ cfg.row_count.getD 0 = 0))
  · rw [if_pos hA] at hok
    exact absurd hok (by simp)
  · exact not_not.mp hA

/-- With nonnegative raw counts, a successful `grid_rc_size` over at least
one item yields nonzero row and column counts. -/
theorem grid_rc_nonzero (a : Attrs) (cfg : GridCfg) (ss : List (Int × Int))
    (r c gw gh : Int) (hok : grid_rc_size a cfg ss = .ok ((r, c), (gw, gh)))
    (hr0 : 0 ≤ cfg.row_count.getD 0) (hc0 : 0 ≤ cfg.col_count.getD 0)
    (hn : 1 ≤ ss.length) : r ≠ 0 ∧ c ≠ 0 := by
  have hrc := grid_rc_size_rc a cfg ss r c gw gh hok
  have hA := grid_rc_size_assert a cfg ss _ hok
  simp only [grid_derive_rc, Prod.mk.injEq] at hrc
  obtain ⟨hre, hce⟩ := hrc
  have hn1 : (1 : Int) ≤ (ss.length : Int) := by exact_mod_cast hn
  rcases hA with ⟨hrv, hcv⟩ | ⟨hcv, hrv⟩
  · have hrpos : 0 < cfg.row_count.getD 0 := lt_of_le_of_ne hr0 (Ne.symm hrv)
    rw [if_neg hrv] at hre
    rw [if_pos hcv] at hce
    rw [if_neg hrv] at hce
    constructor
    · omega
    · rw [hce]
      have := fdiv_ceil_pos (ss.length : Int) (cfg.row_count.getD 0) hrpos hn1
      omega
  · have hcpos : 0 < cfg.col_count.getD 0 := lt_of_le_of_ne hc0 (Ne.symm hcv)
    rw [if_pos hrv] at hre
    rw [if_neg hcv] at hce
    constructor
    · rw [hre]
      have := fdiv_ceil_pos (ss.length : Int) (cfg.col_count.getD 0) hcpos hn1
      omega
    · omega

/-- Inversion of `self_sizes` on a cons cell. -/
theorem self_sizes_cons_inv (w : Widget) (ws : WidgetList) (l : List (Int × Int))
    (h : (WidgetList.cons w ws).self_sizes = .ok l) :
    ∃ s rest, w.self_size = .ok s ∧ ws.self_sizes = .ok rest ∧ l = s :: rest := by
  simp only [WidgetList.self_sizes] at h
  obtain ⟨cs, hcs, h2⟩ := except_bind_ok.mp h
  obtain ⟨s, hsso, h3⟩ := except_bind_ok.mp h2
  obtain ⟨rest, hrest, h4⟩ := except_bind_ok.mp h3
  have hl : s :: rest = l := by simpa [pure, Except.pure] using h4
  refine ⟨s, rest, ?_, hrest, hl.symm⟩
  unfold Widget.self_size
  rw [hcs, except_bind_ok_left, hsso]

/-- `self_sizes` preserves the item count. -/
theorem self_sizes_length : ∀ (ws : WidgetList) (l : List (Int × Int)),
    ws.self_sizes = .ok l → l.length = ws.length
  | .nil, l, h => by
    have : ([] : List (Int × Int)) = l := by simpa [WidgetList.self_sizes, pure, Except.pure] using h
    rw [← this]
    rfl
  | .cons w ws, l, h => by
    obtain ⟨s, rest, _, hrest, hl⟩ := self_sizes_cons_inv w ws l h
    subst hl
    have := self_sizes_length ws rest hrest
    simp only [List.length_cons, WidgetList.length, this]
    omega

/-- `content_pos` succeeds whenever the self size does. -/
theorem content_pos_total (w : Widget) (s : Int × Int) (hs : w.self_size = .ok s) :
    ∃ cp, w.content_pos = .ok cp := by
  obtain ⟨cs, hcs, _⟩ := self_size_inv w s hs
  obtain ⟨sw, sh⟩ := s
  obtain ⟨cw, ch⟩ := cs
  exact ⟨_, by
    unfold Widget.content_pos
    exact except_bind_ok.mpr ⟨(sw, sh), hs, except_bind_ok.mpr ⟨(cw, ch), hcs, rfl⟩⟩⟩

/-- The prelude of `draw` succeeds on a painter of the widget's self size. -/
theorem draw_prelude_total (w : Widget) (s : Int × Int) (hs : w.self_size = .ok s)
    (p : Painter) (hp : p.size = s) : ∃ p4, draw_prelude w p = .ok p4 := by
  obtain ⟨cp, hcp⟩ := content_pos_total w s hs
  refine ⟨(((p.move_region (anchored_offset w.attrs p) none).shrink_region
      (w.attrs.hmargin, w.attrs.vmargin)).shrink_region
      (w.attrs.hpadding, w.attrs.vpadding)).move_region cp none, ?_⟩
  unfold draw_prelude
  refine except_bind_ok.mpr ⟨s, hs, ?_⟩
  rw [if_neg (by simp [hp])]
  exact except_bind_ok.mpr ⟨cp, hcp, rfl⟩

mutual
/-- Totality of `Widget.draw`: a widget whose self size computes, whose grid
counts are nonnegative, drawn into a painter of exactly its self size,
completes without error. -/
theorem Widget.draw_total : ∀ (w : Widget) (s : Int × Int), w.self_size = .ok s →
    w.safe_counts → ∀ p : Painter, p.size = s → ∃ q, w.draw p = .ok q
  | .frame a items, s => by
    intro hs hsafe p hp
    obtain ⟨cs, hcs0, _⟩ := self_size_inv _ s hs
    have hcs := hcs0
    simp only [Widget.content_size] at hcs
    obtain ⟨ss, hss, _⟩ := except_bind_ok.mp hcs
    obtain ⟨p4, hpre⟩ := draw_prelude_total _ s hs p hp
    obtain ⟨p5, hdc⟩ := WidgetList.draw_in_frame_total items ss hss hsafe a cs p4
    refine ⟨p5.restore_region 4, ?_⟩
    simp only [Widget.draw]
    refine except_bind_ok.mpr ⟨p4, hpre, ?_⟩
    refine except_bind_ok.mpr ⟨cs, hcs0, ?_⟩
    exact except_bind_ok.mpr ⟨p5, hdc, rfl⟩
  | .hsplit a cfg items, s => by
    intro hs hsafe p hp
    obtain ⟨cs, hcs0, _⟩ := self_size_inv _ s hs
    obtain ⟨p4, hpre⟩ := draw_prelude_total _ s hs p hp
    by_cases hnil : items.isNil = true
    · refine ⟨p4.restore_region 4, ?_⟩
      simp only [Widget.draw]
      refine except_bind_ok.mpr ⟨p4, hpre, ?_⟩
      rw [if_pos hnil]
      rfl
    · have hcs := hcs0
      simp only [Widget.content_size] at hcs
      rw [if_neg hnil] at hcs
      obtain ⟨ss, hss, h2⟩ := except_bind_ok.mp hcs
      obtain ⟨sizes, hsizes, _⟩ := except_bind_ok.mp h2
      obtain ⟨p5, hdc⟩ := WidgetList.draw_in_hsplit_total items ss hss hsafe sizes cfg 0 p4
      refine ⟨p5.restore_region 4, ?_⟩
      simp only [Widget.draw]
      refine except_bind_ok.mpr ⟨p4, hpre, ?_⟩
      rw [if_neg hnil]
      refine except_bind_ok.mpr ⟨ss, hss, ?_⟩
      refine except_bind_ok.mpr ⟨sizes, hsizes, ?_⟩
      exact except_bind_ok.mpr ⟨p5, hdc, rfl⟩
  | .vsplit a cfg items, s => by
    intro hs hsafe p hp
    obtain ⟨cs, hcs0, _⟩ := self_size_inv _ s hs
    obtain ⟨p4, hpre⟩ := draw_prelude_total _ s hs p hp
    by_cases hnil : items.isNil = true
    · refine ⟨p4.restore_region 4, ?_⟩
      simp only [Widget.draw]
      refine except_bind_ok.mpr ⟨p4, hpre, ?_⟩
      rw [if_pos hnil]
      rfl
    · have hcs := hcs0
      simp only [Widget.content_size] at hcs
      rw [if_neg hnil] at hcs
      obtain ⟨ss, hss, h2⟩ := except_bind_ok.mp hcs
      obtain ⟨sizes, hsizes, _⟩ := except_bind_ok.mp h2
      obtain ⟨p5, hdc⟩ := WidgetList.draw_in_vsplit_total items ss hss hsafe sizes cfg 0 p4
      refine ⟨p5.restore_region 4, ?_⟩
      simp only [Widget.draw]
      refine except_bind_ok.mpr ⟨p4, hpre, ?_⟩
      rw [if_neg hnil]
      refine except_bind_ok.mpr ⟨ss, hss, ?_⟩
      refine except_bind_ok.mpr ⟨sizes, hsizes, ?_⟩
      exact except_bind_ok.mpr ⟨p5, hdc, rfl⟩
  | .grid a cfg items, s => by
    intro hs hsafe p hp
    obtain ⟨cs, hcs0, _⟩ := self_size_inv _ s hs
    obtain ⟨p4, hpre⟩ := draw_prelude_total _ s hs p hp
    have hcs := hcs0
    simp only [Widget.content_size] at hcs
    obtain ⟨ss, hss, h2⟩ := except_bind_ok.mp hcs
    obtain ⟨rc, hrc, _⟩ := except_bind_ok.mp h2
    obtain ⟨⟨r, c⟩, gw, gh⟩ := rc
    obtain ⟨hr0, hc0, hisafe⟩ := hsafe
    by_cases hnil : items.isNil = true
    · have hwsnil : items = .nil := by
        cases items with
        | nil => rfl
        | cons _ _ => exact absurd hnil (by simp [WidgetList.isNil])
      subst hwsnil
      refine ⟨p4.restore_region 4, ?_⟩
      simp only [Widget.draw]
      refine except_bind_ok.mpr ⟨p4, hpre, ?_⟩
      refine except_bind_ok.mpr ⟨ss, hss, ?_⟩
      exact except_bind_ok.mpr ⟨((r, c), (gw, gh)), hrc, rfl⟩
    · have hlen : 1 ≤ items.length := by
        cases items with
        | nil => exact absurd rfl hnil
        | cons _ _ => simp [WidgetList.length]
      have hsslen : 1 ≤ ss.length := by
        have := self_sizes_length items ss hss
        omega
      obtain ⟨hrz, hcz⟩ := grid_rc_nonzero a cfg ss r c gw gh hrc hr0 hc0 hsslen
      have hdz : (if cfg.vertical then r else c) ≠ 0 := by
        cases cfg.vertical <;> simpa
      obtain ⟨p5, hdc⟩ :=
        WidgetList.draw_in_grid_total items ss hss hisafe cfg r c gw gh 0 hdz p4
      refine ⟨p5.restore_region 4, ?_⟩
      simp only [Widget.draw]
      refine except_bind_ok.mpr ⟨p4, hpre, ?_⟩
      refine except_bind_ok.mpr ⟨ss, hss, ?_⟩
      refine except_bind_ok.mpr ⟨((r, c), (gw, gh)), hrc, ?_⟩
      exact except_bind_ok.mpr ⟨p5, hdc, rfl⟩
  | .textbox a cfg, s => by
    intro hs hsafe p hp
    obtain ⟨p4, hpre⟩ := draw_prelude_total _ s hs p hp
    refine ⟨(textbox_draw_content a cfg p4).restore_region 4, ?_⟩
    simp only [Widget.draw]
    exact except_bind_ok.mpr ⟨p4, hpre, rfl⟩
  | .imagebox a cfg, s => by
    intro hs hsafe p hp
    obtain ⟨cs, hcs0, _⟩ := self_size_inv _ s hs
    obtain ⟨p4, hpre⟩ := draw_prelude_total _ s hs p hp
    refine ⟨p4.restore_region 4, ?_⟩
    simp only [Widget.draw]
    refine except_bind_ok.mpr ⟨p4, hpre, ?_⟩
    exact except_bind_ok.mpr ⟨cs, hcs0, rfl⟩
  | .spacer a, s => by
    intro hs hsafe p hp
    obtain ⟨p4, hpre⟩ := draw_prelude_total _ s hs p hp
    refine ⟨p4.restore_region 4, ?_⟩
    simp only [Widget.draw]
    exact except_bind_ok.mpr ⟨p4, hpre, rfl⟩
/-- Totality of `Frame._draw_content`'s child loop. -/
theorem WidgetList.draw_in_frame_total : ∀ (ws : WidgetList) (l : List (Int × Int)),
    ws.self_sizes = .ok l → ws.safe_counts → ∀ (a : Attrs) (cs : Int × Int) (p : Painter),
    ∃ q, WidgetList.draw_in_frame ws a cs p = .ok q
  | .nil, l, _, _, a, cs, p => ⟨p, rfl⟩
  | .cons w ws, l, hl, hsafe, a, cs, p => by
    obtain ⟨si, rest, hws, hwrest, _⟩ := self_sizes_cons_inv w ws l hl
    obtain ⟨sw, sh⟩ := si
    obtain ⟨p2, hd⟩ := Widget.draw_total w (sw, sh) hws hsafe.1
      (p.move_region (align_xy a.content_halign a.content_valign cs.1 cs.2 sw sh)
        (some (sw, sh))) rfl
    obtain ⟨q, hq⟩ := WidgetList.draw_in_frame_total ws rest hwrest hsafe.2 a cs
      (p2.restore_region 1)
    refine ⟨q, ?_⟩
    simp only [WidgetList.draw_in_frame]
    refine except_bind_ok.mpr ⟨(sw, sh), hws, ?_⟩
    exact except_bind_ok.mpr ⟨p2, hd, hq⟩
/-- Totality of `HSplit._draw_content`'s child loop. -/
theorem WidgetList.draw_in_hsplit_total : ∀ (ws : WidgetList) (l : List (Int × Int)),
    ws.self_sizes = .ok l → ws.safe_counts → ∀ (szs : List (Int × Int)) (cfg : SplitCfg)
    (x : Int) (p : Painter), ∃ q, WidgetList.draw_in_hsplit ws szs cfg x p = .ok q
  | .nil, l, _, _, szs, cfg, x, p => ⟨p, by cases szs <;> rfl⟩
  | .cons w ws, l, hl, hsafe, [], cfg, x, p => ⟨p, rfl⟩
  | .cons w ws, l, hl, hsafe, sz :: szs, cfg, x, p => by
    obtain ⟨si, rest, hws, hwrest, _⟩ := self_sizes_cons_inv w ws l hl
    obtain ⟨sw, sh⟩ := si
    obtain ⟨p3, hd⟩ := Widget.draw_total w (sw, sh) hws hsafe.1
      ((p.move_region (x, 0) (some sz)).move_region
        (align_xy cfg.item_halign cfg.item_valign sz.1 sz.2 sw sh) (some (sw, sh))) rfl
    obtain ⟨q, hq⟩ := WidgetList.draw_in_hsplit_total ws rest hwrest hsafe.2 szs cfg
      (x + sz.1 + cfg.sep) (p3.restore_region 2)
    refine ⟨q, ?_⟩
    simp only [WidgetList.draw_in_hsplit]
    refine except_bind_ok.mpr ⟨(sw, sh), hws, ?_⟩
    exact except_bind_ok.mpr ⟨p3, hd, hq⟩
/-- Totality of `VSplit._draw_content`'s child loop. -/
theorem WidgetList.draw_in_vsplit_total : ∀ (ws : WidgetList) (l : List (Int × Int)),
    ws.self_sizes = .ok l → ws.safe_counts → ∀ (szs : List (Int × Int)) (cfg : SplitCfg)
    (y : Int) (p : Painter), ∃ q, WidgetList.draw_in_vsplit ws szs cfg y p = .ok q
  | .nil, l, _, _, szs, cfg, y, p => ⟨p, by cases szs <;> rfl⟩
  | .cons w ws, l, hl, hsafe, [], cfg, y, p => ⟨p, rfl⟩
  | .cons w ws, l, hl, hsafe, sz :: szs, cfg, y, p => by
    obtain ⟨si, rest, hws, hwrest, _⟩ := self_sizes_cons_inv w ws l hl
    obtain ⟨sw, sh⟩ := si
    obtain ⟨p3, hd⟩ := Widget.draw_total w (sw, sh) hws hsafe.1
      ((p.move_region (0, y) (some sz)).move_region
        (align_xy cfg.item_halign cfg.item_valign sz.1 sz.2 sw sh) (some (sw, sh))) rfl
    obtain ⟨q, hq⟩ := WidgetList.draw_in_vsplit_total ws rest hwrest hsafe.2 szs cfg
      (y + sz.2 + cfg.sep) (p3.restore_region 2)
    refine ⟨q, ?_⟩
    simp only [WidgetList.draw_in_vsplit]
    refine except_bind_ok.mpr ⟨(sw, sh), hws, ?_⟩
    exact except_bind_ok.mpr ⟨p3, hd, hq⟩
/-- Totality of `Grid._draw_content`'s child loop (given a nonzero division
count for the traversal order in use). -/
theorem WidgetList.draw_in_grid_total : ∀ (ws : WidgetList) (l : List (Int × Int)),
    ws.self_sizes = .ok l → ws.safe_counts → ∀ (cfg : GridCfg) (r c gw gh idx : Int),
    (if cfg.vertical then r else c) ≠ 0 → ∀ p : Painter,
    ∃ q, WidgetList.draw_in_grid ws cfg ((r, c), (gw, gh)) idx p = .ok q
  | .nil, l, _, _, cfg, r, c, gw, gh, idx, _, p => ⟨p, rfl⟩
  | .cons w ws, l, hl, hsafe, cfg, r, c, gw, gh, idx, hdz, p => by
    obtain ⟨si, rest, hws, hwrest, _⟩ := self_sizes_cons_inv w ws l hl
    obtain ⟨sw, sh⟩ := si
    obtain ⟨p3, hd⟩ := Widget.draw_total w (sw, sh) hws hsafe.1
      ((p.move_region ((grid_cell cfg.vertical r c idx).2 * (gw + cfg.hsep),
          (grid_cell cfg.vertical r c idx).1 * (gh + cfg.vsep)) (some (gw, gh))).move_region
        (align_xy cfg.item_halign cfg.item_valign gw gh sw sh) (some (sw, sh))) rfl
    obtain ⟨q, hq⟩ := WidgetList.draw_in_grid_total ws rest hwrest hsafe.2 cfg r c gw gh
      (idx + 1) hdz (p3.restore_region 2)
    refine ⟨q, ?_⟩
    simp only [WidgetList.draw_in_grid]
    rw [if_neg hdz]
    refine except_bind_ok.mpr ⟨(sw, sh), hws, ?_⟩
    exact except_bind_ok.mpr ⟨p3, hd, hq⟩
end

/-- C7: `Canvas.get_img` fails with the size assert whenever the canvas self
size `W × H` is not below `4096 * 4096` pixels — the check sits before the
buffer allocation and draw in `get_img` — and for any canvas below the limit
(with computable self size and nonnegative grid counts) it returns an image
whose size equals the canvas self size, scaled by the optional truthy final
scale factor. -/
theorem claim_c7_canvas_pixel_budget (c : Widget) (scale : Option ℚ) (W H : Int)
    (hs : c.self_size = .ok (W, H)) (hsafe : c.safe_counts) :
    (4096 * 4096 ≤ W * H → Canvas.get_img c scale = .error .assertFail) ∧
    (W * H < 4096 * 4096 →
      Canvas.get_img c scale = .ok (match scale with
        | some s => if s ≠ 0 then (truncQ ((W : ℚ) * s), truncQ ((H : ℚ) * s)) else (W, H)
        | none => (W, H))) := by
  constructor
  · intro hge
    unfold Canvas.get_img
    rw [hs, except_bind_ok_left, if_pos (by simp only []; omega)]
    rfl
  · intro hlt
    obtain ⟨q, hdraw⟩ := Widget.draw_total c (W, H) hs hsafe
      ⟨(W, H), (0, 0), (W, H), [], 0, 0⟩ rfl
    unfold Canvas.get_img
    rw [hs, except_bind_ok_left, if_neg (by simp only []; omega)]
    refine except_bind_ok.mpr ⟨q, hdraw, ?_⟩
    cases scale with
    | none => rfl
    | some s =>
      show (if s ≠ 0 then pure (truncQ ((W : ℚ) * s), truncQ ((H : ℚ) * s))
          else pure (W, H) : Except PErr (Int × Int)) =
        .ok (if s ≠ 0 then (truncQ ((W : ℚ) * s), truncQ ((H : ℚ) * s)) else (W, H))
      by_cases hz : s ≠ 0
      · rw [if_pos hz, if_pos hz]
        rfl
      · rw [if_neg hz, if_neg hz]
        rfl

/-- Witness for C7: an empty 10×10 canvas is below the pixel budget and
`get_img` yields exactly a 10×10 image; a 5000×5000 one trips the budget
assert. -/
theorem claim_c7_canvas_pixel_budget_witness :
    Canvas.get_img (.frame { w := some 10, h := some 10 } .nil) none = .ok (10, 10) ∧
    Canvas.get_img (.frame { w := some 5000, h := some 5000 } .nil) none
      = .error .assertFail := by
  constructor
  · have h := (claim_c7_canvas_pixel_budget (.frame { w := some 10, h := some 10 } .nil)
      none 10 10 rfl trivial).2 (by norm_num)
    simpa using h
  · exact (claim_c7_canvas_pixel_budget (.frame { w := some 5000, h := some 5000 } .nil)
      none 5000 5000 rfl trivial).1 (by norm_num)
